import Mathlib

/-!
Verification of the multisig transaction coordinator's persistence store,
engine orchestration, and multisig client against its specification.

The development is a shallow embedding of the Rust sources:
* `crates/coordinator/store/src/persistence/store.rs` (SQL-level operations),
* `crates/coordinator/store/src/lib.rs` (the `MultisigStore` interface),
* `crates/coordinator/engine/src/lib.rs` (the `MultisigEngine` operations),
* `crates/coordinator/engine/src/types/request.rs` (request validation),
* `crates/miden-multisig-client/src/lib.rs` (the multisig client).

Database state is modelled as lists of rows mirroring the diesel schema
(`persistence/schema.rs`); each SQL statement becomes a pure function on
that state, and a SQL transaction becomes an `Except` computation whose
error outcome leaves the caller's state untouched (rollback).

Opaque byte blobs (serialized transaction requests, summaries, signatures)
are modelled as `List Nat`; bech32 address strings as `String`; UUIDs as
`Nat`; timestamps as `Nat`.  Serialization round-trips of the Miden SDK
types are treated as the identity on these opaque blobs.
-/

instance {ε α : Type} [DecidableEq ε] [DecidableEq α] :
    DecidableEq (Except ε α) := fun a b =>
  match a, b with
  | .ok x, .ok y =>
    if h : x = y then .isTrue (by rw [h]) else .isFalse (by simp [h])
  | .error x, .error y =>
    if h : x = y then .isTrue (by rw [h]) else .isFalse (by simp [h])
  | .ok _, .error _ => .isFalse (by simp)
  | .error _, .ok _ => .isFalse (by simp)

/-- Bech32-printable address string, as stored in the database. -/
abbrev Addr := String

/-- Opaque transaction id (`uuid` column). -/
abbrev TxId := Nat

/-- Opaque byte blob (`bytea` column). -/
abbrev Bytes := List Nat

/-- `MultisigTxStatus` from `crates/coordinator/domain/src/tx.rs`:
a closed enum `{Pending, Success, Failure}`. -/
inductive TxStatus where
  | pending
  | success
  | failure
  deriving DecidableEq, Repr

/-- `AccountKind` (`kind` enum column): public or private storage mode. -/
inductive AccountKind where
  | publicMode
  | privateMode
  deriving DecidableEq, Repr

/-- One row of the `multisig_account` table
(`persistence/schema.rs`: address PK, kind, threshold Int8, created_at). -/
structure MultisigAccountRow where
  address : Addr
  kind : AccountKind
  threshold : Int
  createdAt : Nat
  deriving DecidableEq, Repr

/-- One row of the `approver` table (address PK, pub_key_commit bytea). -/
structure ApproverRow where
  address : Addr
  pubKeyCommit : Bytes
  createdAt : Nat
  deriving DecidableEq, Repr

/-- One row of the `multisig_account_approver_mapping` table
(PK (multisig_account_address, approver_address), approver_index Int8). -/
structure MappingRow where
  multisigAccountAddress : Addr
  approverAddress : Addr
  approverIndex : Int
  deriving DecidableEq, Repr

/-- One row of the `tx` table
(id uuid PK, multisig_account_address, status, tx_request, tx_summary,
tx_summary_commit, created_at). -/
structure TxRow where
  id : TxId
  multisigAccountAddress : Addr
  status : TxStatus
  txRequest : Bytes
  txSummary : Bytes
  txSummaryCommit : Bytes
  createdAt : Nat
  deriving DecidableEq, Repr

/-- One row of the `signature` table
(PK (tx_id, approver_address), signature_bytes bytea, created_at). -/
structure SignatureRow where
  txId : TxId
  approverAddress : Addr
  signatureBytes : Bytes
  createdAt : Nat
  deriving DecidableEq, Repr

/-- The relational database state: one list of rows per table of the
schema in `persistence/schema.rs`. -/
structure Db where
  multisigAccount : List MultisigAccountRow
  approver : List ApproverRow
  mapping : List MappingRow
  tx : List TxRow
  signature : List SignatureRow
  deriving DecidableEq, Repr

/-- Driver-level store error (`persistence/store/error.rs`); a uniqueness
violation on insert and the generic variants used by the store. -/
inductive StoreErr where
  | uniqueViolation
  | notFound
  | other (msg : String)
  deriving DecidableEq, Repr

/-- `MultisigStoreError` from `crates/coordinator/store/src/error.rs`. -/
inductive MultisigStoreError where
  | Store (e : StoreErr)
  | Validation (msg : String)
  | NotFound (msg : String)
  | Serialization (msg : String)
  | Pool
  | InvalidValue
  | Other (msg : String)
  deriving DecidableEq, Repr

/-- `fetch_mutisig_account_by_address` (store.rs): first row of
`multisig_account` filtered on the address. -/
def fetch_mutisig_account_by_address (db : Db) (address : Addr) :
    Option MultisigAccountRow :=
  db.multisigAccount.find? (fun r => r.address == address)

/-- `validate_approver_address_by_tx_id` (store.rs): SELECT EXISTS over
`multisig_account_approver_mapping` inner-joined with `tx` on the
account address, filtered on `tx.id = tx_id` and the approver address. -/
def validate_approver_address_by_tx_id (db : Db) (txId : TxId)
    (approverAddress : Addr) : Bool :=
  db.mapping.any (fun m =>
    db.tx.any (fun t =>
      t.id == txId && t.multisigAccountAddress == m.multisigAccountAddress)
    && m.approverAddress == approverAddress)

/-- The signature rows belonging to a transaction (the left-join
`signature.tx_id = tx.id` match set used by the counting queries). -/
def signaturesForTx (db : Db) (txId : TxId) : List SignatureRow :=
  db.signature.filter (fun s => s.txId == txId)

/-- `fetch_tx_with_signature_count_by_id` (store.rs): the `tx` row with the
given id, paired with COUNT of its left-joined `signature` rows. -/
def fetch_tx_with_signature_count_by_id (db : Db) (txId : TxId) :
    Option (TxRow × Nat) :=
  (db.tx.find? (fun t => t.id == txId)).map
    (fun t => (t, (signaturesForTx db txId).length))

/-- `save_new_signature` (store.rs): INSERT INTO `signature`; the table's
primary key (tx_id, approver_address) turns a duplicate into a uniqueness
violation. -/
def save_new_signature (db : Db) (row : SignatureRow) : Except StoreErr Db :=
  if db.signature.any (fun s =>
      s.txId == row.txId && s.approverAddress == row.approverAddress) then
    .error .uniqueViolation
  else
    .ok { db with signature := db.signature ++ [row] }

/-- `update_status_by_tx_id` (store.rs): UPDATE `tx` SET status filtered
only on the id; returns whether exactly one row was affected.  The source
asserts `affected <= 1` (id is the primary key) and performs no check of
the row's current status. -/
def update_status_by_tx_id (db : Db) (txId : TxId) (newStatus : TxStatus) :
    Db × Bool :=
  let affected := (db.tx.filter (fun t => t.id == txId)).length
  ({ db with
      tx := db.tx.map (fun t =>
        if t.id == txId then { t with status := newStatus } else t) },
    affected == 1)

/-- `save_new_tx` (store.rs): INSERT INTO `tx` RETURNING id.
Modelled from the spec: the `status` column's insert value, which comes
from the crate's migrations (not in the tree), defaults to `pending`
(spec section 3: "`status=pending` on insert"). -/
def save_new_tx (db : Db) (multisigAccountAddress : Addr)
    (txRequest txSummary txSummaryCommit : Bytes) (newId : TxId) (now : Nat) :
    Db × TxId :=
  ({ db with
      tx := db.tx ++ [{ id := newId,
                        multisigAccountAddress := multisigAccountAddress,
                        status := .pending,
                        txRequest := txRequest,
                        txSummary := txSummary,
                        txSummaryCommit := txSummaryCommit,
                        createdAt := now }] },
    newId)

/-- `save_new_multisig_account` (store.rs): INSERT INTO `multisig_account`
RETURNING created_at; the address primary key turns a duplicate into a
uniqueness violation. -/
def save_new_multisig_account (db : Db) (row : MultisigAccountRow) :
    Except StoreErr Db :=
  if db.multisigAccount.any (fun r => r.address == row.address) then
    .error .uniqueViolation
  else
    .ok { db with multisigAccount := db.multisigAccount ++ [row] }

/-- `upsert_approver` (store.rs): INSERT INTO `approver` ON CONFLICT
(address) DO UPDATE SET pub_key_commit = excluded. -/
def upsert_approver (db : Db) (row : ApproverRow) : Db :=
  if db.approver.any (fun a => a.address == row.address) then
    { db with
        approver := db.approver.map (fun a =>
          if a.address == row.address then
            { a with pubKeyCommit := row.pubKeyCommit }
          else a) }
  else
    { db with approver := db.approver ++ [row] }

/-- `save_new_multisig_account_approver_mapping` (store.rs): INSERT INTO
`multisig_account_approver_mapping`; the primary key
(account_address, approver_address) and the UNIQUE(account, index)
constraint turn duplicates into uniqueness violations. -/
def save_new_multisig_account_approver_mapping (db : Db)
    (multisigAccountAddress approverAddress : Addr) (approverIndex : Int) :
    Except StoreErr Db :=
  if db.mapping.any (fun m =>
      m.multisigAccountAddress == multisigAccountAddress &&
        (m.approverAddress == approverAddress ||
         m.approverIndex == approverIndex)) then
    .error .uniqueViolation
  else
    .ok { db with
            mapping := db.mapping ++
              [{ multisigAccountAddress := multisigAccountAddress,
                 approverAddress := approverAddress,
                 approverIndex := approverIndex }] }

/-- Ordering relation for ORDER BY `approver_index` ASC. -/
def mappingLe : MappingRow → MappingRow → Prop :=
  fun a b => a.approverIndex ≤ b.approverIndex

instance : DecidableRel mappingLe := fun a b =>
  inferInstanceAs (Decidable (a.approverIndex ≤ b.approverIndex))

/-- The mapping rows of an account sorted by `approver_index` ascending
(the ORDER BY clause of the queries below). -/
def mappingRowsSorted (db : Db) (multisigAccountAddress : Addr) :
    List MappingRow :=
  List.insertionSort mappingLe
    (db.mapping.filter (fun m =>
      m.multisigAccountAddress == multisigAccountAddress))

/-- `stream_approvers_by_multisig_account_address` (store.rs):
`multisig_account_approver_mapping` inner-joined with `approver` on the
approver address, filtered on the account, ordered by `approver_index`
ascending, selecting the approver columns. -/
def stream_approvers_by_multisig_account_address (db : Db)
    (multisigAccountAddress : Addr) : List ApproverRow :=
  (mappingRowsSorted db multisigAccountAddress).filterMap
    (fun m => db.approver.find? (fun a => a.address == m.approverAddress))

/-- `fetch_all_signature_bytes_with_tx_by_tx_id_in_order_of_approvers`
(store.rs): the `tx` row with the given id inner-joined with the account's
approver mapping, left-joined with `signature` on
(approver_address, tx_id); ARRAY_AGG of the nullable signature bytes
ordered by `approver_index` ascending, paired with the `tx` columns.
`.first` yields no row (a NotFound driver error in the source) when the tx
is missing or the inner join is empty. -/
def fetch_all_signature_bytes_with_tx_by_tx_id_in_order_of_approvers
    (db : Db) (txId : TxId) : Option (List (Option Bytes) × TxRow) :=
  match db.tx.find? (fun t => t.id == txId) with
  | none => none
  | some t =>
    let rows := mappingRowsSorted db t.multisigAccountAddress
    if rows.isEmpty then none
    else
      some (rows.map (fun m =>
        (db.signature.find? (fun s =>
          s.txId == txId && s.approverAddress == m.approverAddress)).map
            (fun s => s.signatureBytes)), t)

/-- `MultisigStore::add_multisig_tx_signature`
(crates/coordinator/store/src/lib.rs): runs in one database transaction.
1. validate the approver is joined to the transaction's account; if not,
   return `none` without touching the state;
2. insert the signature row (a uniqueness violation rolls the transaction
   back and surfaces as a `Store` error);
3. re-read the transaction's signature count and the account's threshold
   inside the same transaction and return
   `some (count.to_signed >= threshold)`.
An error outcome leaves the database unchanged (rollback). -/
def add_multisig_tx_signature (db : Db) (txId : TxId)
    (approverAddress : Addr) (signatureBz : Bytes) (now : Nat) :
    Except MultisigStoreError (Option Bool × Db) :=
  if !validate_approver_address_by_tx_id db txId approverAddress then
    .ok (none, db)
  else
    match save_new_signature db
        { txId := txId, approverAddress := approverAddress,
          signatureBytes := signatureBz, createdAt := now } with
    | .error e => .error (.Store e)
    | .ok db1 =>
      match fetch_tx_with_signature_count_by_id db1 txId with
      | none => .error (.Store (.other "tx not found"))
      | some (txRow, signatureCount) =>
        match fetch_mutisig_account_by_address db1
            txRow.multisigAccountAddress with
        | none => .error (.Store (.other "multisig account not found"))
        | some acct =>
          .ok (some (decide ((signatureCount : Int) ≥ acct.threshold)), db1)

/-- `MultisigStore::update_multisig_tx_status_by_id` (lib.rs): runs
`update_status_by_tx_id` and maps an unaffected update (no row with the
id) to `NotFound`. -/
def update_multisig_tx_status_by_id (db : Db) (txId : TxId)
    (newStatus : TxStatus) : Except MultisigStoreError Db :=
  let r := update_status_by_tx_id db txId newStatus
  if !r.2 then .error (.NotFound "tx id not found") else .ok r.1

/-- `MultisigStore::create_multisig_tx` (lib.rs): serializes the request,
summary and summary commitment and inserts one `tx` row, returning the
generated id.  Serialization of the opaque SDK types is the identity on
our opaque blobs. -/
def create_multisig_tx (db : Db) (multisigAccountAddress : Addr)
    (txRequest txSummary txSummaryCommit : Bytes) (newId : TxId) (now : Nat) :
    Db × TxId :=
  save_new_tx db multisigAccountAddress txRequest txSummary txSummaryCommit
    newId now

/-- `MultisigStore::get_signatures_of_all_approvers_with_multisig_tx_by_tx_id`
(lib.rs): fetches the positionally aggregated signature bytes together
with the transaction row; a missing row surfaces as a `Store` error.
Deserialization of the signature bytes is the identity on opaque blobs. -/
def get_signatures_of_all_approvers_with_multisig_tx_by_tx_id (db : Db)
    (txId : TxId) : Except MultisigStoreError (List (Option Bytes) × TxRow) :=
  match fetch_all_signature_bytes_with_tx_by_tx_id_in_order_of_approvers
      db txId with
  | none => .error (.Store .notFound)
  | some r => .ok r

/-- The fully populated multisig account the store accepts for creation:
the typestate `MultisigAccount<WithApprovers, WithPubKeyCommits, ()>` of
`crates/coordinator/domain/src/account.rs`, with addresses already in
their bech32 string form. -/
structure MultisigAccountWithApprovers where
  address : Addr
  kind : AccountKind
  threshold : Nat
  approvers : List Addr
  pubKeyCommits : List Bytes
  deriving DecidableEq, Repr

/-- The per-approver loop body of `MultisigStore::create_multisig_account`
(lib.rs): for each `(approver_address, pub_key_commit)` pair at position
`idx`, upsert the approver row and insert the account-approver mapping row
with `approver_index = idx`. -/
def insertApproversFrom (multisigAccountAddress : Addr) (now : Nat) :
    Db → List (Addr × Bytes) → Nat → Except StoreErr Db
  | db, [], _ => .ok db
  | db, (approverAddress, pubKeyCommit) :: rest, idx =>
    let db1 := upsert_approver db
      { address := approverAddress, pubKeyCommit := pubKeyCommit,
        createdAt := now }
    match save_new_multisig_account_approver_mapping db1
        multisigAccountAddress approverAddress (idx : Int) with
    | .error e => .error e
    | .ok db2 => insertApproversFrom multisigAccountAddress now db2 rest
        (idx + 1)

/-- `MultisigStore::create_multisig_account` (lib.rs): in a single
database transaction, insert the account row, then for each enumerated
`(approver, pub_key_commit)` pair upsert the approver and insert the join
row with `approver_index` equal to the enumeration index.  An error
outcome leaves the database unchanged (rollback). -/
def create_multisig_account (db : Db)
    (acct : MultisigAccountWithApprovers) (now : Nat) :
    Except MultisigStoreError Db :=
  match save_new_multisig_account db
      { address := acct.address, kind := acct.kind,
        threshold := (acct.threshold : Int), createdAt := now } with
  | .error e => .error (.Store e)
  | .ok db1 =>
    match insertApproversFrom acct.address now db1
        (acct.approvers.zip acct.pubKeyCommits) 0 with
    | .error e => .error (.Store e)
    | .ok db2 => .ok db2

/-- Opaque `TransactionResult` returned by the SDK after a successful
chain submission. -/
abbrev TxResult := Nat

/-- `ProcessMultisigTxError` (engine multisig_client_runtime/msg.rs):
wraps the client error reported by the runtime; opaque here. -/
structure ProcessMultisigTxError where
  msg : String
  deriving DecidableEq, Repr

/-- `MultisigEngineErrorKind` (engine error module): the error kinds the
engine wraps downstream failures into. -/
inductive EngineErrKind where
  | MultisigStore (e : MultisigStoreError)
  | MpscSender (msg : String)
  | OneshotReceive
  | NotFound (msg : String)
  | ProposeMultisigTx
  | ProcessMultisigTx (e : ProcessMultisigTxError)
  | Other (msg : String)
  deriving DecidableEq, Repr

/-- The payload of a `ProcessMultisigTx` message posted to the multisig
client runtime queue (engine msg.rs): account, transaction request,
summary, and the positionally ordered optional signatures. -/
structure ProcessMultisigTxMsg where
  multisigAccountAddress : Addr
  txRequest : Bytes
  txSummary : Bytes
  signatures : List (Option Bytes)
  deriving DecidableEq, Repr

/-- `MultisigEngine::add_signature` (crates/coordinator/engine/src/lib.rs).
The runtime's reply to a posted `ProcessMultisigTx` message is an oracle
parameter `processReply` (the engine awaits it on a oneshot channel).
Returns the engine result, the database after the call, and the list of
`ProcessMultisigTx` messages posted to the runtime queue during the call.
Control flow translated from the source:
* store returns `none` -> error "approver not permitted ...";
* store returns `some false` -> `Ok(None)`, nothing posted;
* store returns `some true` -> load the ordered signatures and tx, post
  one `ProcessMultisigTx`, await the reply; on `Ok(result)` set the tx
  status to success and return `Ok(Some(result))`; on `Err(e)` set the tx
  status to failure and return the wrapped error. -/
def engine_add_signature (db : Db) (txId : TxId) (approverAddress : Addr)
    (signatureBz : Bytes) (now : Nat)
    (processReply : Except ProcessMultisigTxError TxResult) :
    Except EngineErrKind (Option TxResult) × Db × List ProcessMultisigTxMsg :=
  match add_multisig_tx_signature db txId approverAddress signatureBz now with
  | .error e => (.error (.MultisigStore e), db, [])
  | .ok (none, db1) =>
    (.error (.Other "approver not permitted to add signature for tx"),
      db1, [])
  | .ok (some false, db1) => (.ok none, db1, [])
  | .ok (some true, db1) =>
    match get_signatures_of_all_approvers_with_multisig_tx_by_tx_id
        db1 txId with
    | .error e => (.error (.MultisigStore e), db1, [])
    | .ok (signatures, txRow) =>
      let msg : ProcessMultisigTxMsg :=
        { multisigAccountAddress := txRow.multisigAccountAddress,
          txRequest := txRow.txRequest,
          txSummary := txRow.txSummary,
          signatures := signatures }
      match processReply with
      | .ok txResult =>
        match update_multisig_tx_status_by_id db1 txId .success with
        | .error e => (.error (.MultisigStore e), db1, [msg])
        | .ok db2 => (.ok (some txResult), db2, [msg])
      | .error e =>
        match update_multisig_tx_status_by_id db1 txId .failure with
        | .error e2 => (.error (.MultisigStore e2), db1, [msg])
        | .ok db2 => (.error (.ProcessMultisigTx e), db2, [msg])

/-- `CreateMultisigAccountRequestError`
(engine types/request/error.rs). -/
inductive CreateMultisigAccountRequestError where
  | EmptyApprovers
  | EmptyPubKeyCommits
  | ApproversPubKeyCommitsLengthMismatch
  | ExcessThreshold
  | OtherReq (msg : String)
  deriving DecidableEq, Repr

/-- A validated `CreateMultisigAccountRequest` (engine types/request.rs),
with approver account ids already in their bech32 string form and public
key commitments as opaque words. -/
structure CreateMultisigAccountRequest where
  threshold : Nat
  approvers : List Addr
  pubKeyCommits : List Bytes
  deriving DecidableEq, Repr

/-- `CreateMultisigAccountRequest::new` (engine types/request.rs,
lines 108-134): validation at construction time, in source order:
non-empty approvers, non-empty commitments, equal lengths, and
`threshold <= |approvers|`. -/
def CreateMultisigAccountRequest.new (threshold : Nat)
    (approvers : List Addr) (pubKeyCommits : List Bytes) :
    Except CreateMultisigAccountRequestError CreateMultisigAccountRequest :=
  if approvers.isEmpty then .error .EmptyApprovers
  else if pubKeyCommits.isEmpty then .error .EmptyPubKeyCommits
  else if approvers.length != pubKeyCommits.length then
    .error .ApproversPubKeyCommitsLengthMismatch
  else if threshold > approvers.length then .error .ExcessThreshold
  else .ok { threshold := threshold, approvers := approvers,
             pubKeyCommits := pubKeyCommits }

/-- `MultisigAccount::with_approvers` on the bare account
(domain account.rs, lines 204-218): attaches the approvers when their
count meets or exceeds the threshold, otherwise `none`. -/
def with_approvers (threshold : Nat) (approvers : List Addr) :
    Option (List Addr) :=
  if approvers.length ≥ threshold then some approvers else none

/-- `MultisigAccount::with_pub_key_commits` on an account that already
has approvers (domain account.rs, lines 254-267): attaches the
commitments when their count equals the approver count, otherwise
`none`. -/
def with_pub_key_commits (approvers : List Addr)
    (pubKeyCommits : List Bytes) : Option (List Bytes) :=
  if approvers.length == pubKeyCommits.length then some pubKeyCommits
  else none

/-- The outcome of the account-creation pipeline: a request validation
error, an engine-level error, or success with the resulting database. -/
inductive CreateAccountOutcome where
  | requestError (e : CreateMultisigAccountRequestError)
  | engineError (e : EngineErrKind)
  | ok (db : Db)
  deriving DecidableEq, Repr

/-- `MultisigEngine::create_multisig_account` (engine lib.rs,
lines 259-306) on an already validated request: post the runtime message
(its successful reply carries the new on-chain account, whose bech32
address is the oracle `midenAccountAddress`), build the typestate domain
account via `with_approvers` and `with_pub_key_commits`, and persist it
through the store. -/
def engine_create_multisig_account (db : Db)
    (request : CreateMultisigAccountRequest) (midenAccountAddress : Addr)
    (now : Nat) : Except EngineErrKind Db :=
  match with_approvers request.threshold request.approvers with
  | none => .error (.Other "threshold exceeds approvers length")
  | some approvers =>
    match with_pub_key_commits approvers request.pubKeyCommits with
    | none => .error (.Other "approvers length mismatches pub key commits")
    | some pubKeyCommits =>
      match create_multisig_account db
          { address := midenAccountAddress, kind := .publicMode,
            threshold := request.threshold, approvers := approvers,
            pubKeyCommits := pubKeyCommits } now with
      | .error e => .error (.MultisigStore e)
      | .ok db1 => .ok db1

/-- The full account-creation pipeline: request validation
(`CreateMultisigAccountRequest::new`) followed by the engine operation. -/
def create_account_pipeline (db : Db) (threshold : Nat)
    (approvers : List Addr) (pubKeyCommits : List Bytes)
    (midenAccountAddress : Addr) (now : Nat) : CreateAccountOutcome :=
  match CreateMultisigAccountRequest.new threshold approvers pubKeyCommits with
  | .error e => .requestError e
  | .ok request =>
    match engine_create_multisig_account db request midenAccountAddress
        now with
    | .error e => .engineError e
    | .ok db1 => .ok db1

/-- Opaque 4-felt word (storage values, commitments, advice-map keys). -/
abbrev Word := Nat

/-- `ClientError` from the wallet SDK, as matched by
`propose_multisig_transaction`: the distinguished
`TransactionExecutorError::Unauthorized(summary)` variant and everything
else. -/
inductive ClientError where
  | TransactionExecutorUnauthorized (summary : Bytes)
  | otherClient (msg : String)
  deriving DecidableEq, Repr

/-- `TransactionProposalError`
(crates/miden-multisig-client/src/error.rs). -/
inductive TransactionProposalError where
  | DryRunExpected
  | OtherProposal (msg : String)
  deriving DecidableEq, Repr

/-- `MultisigClientError`
(crates/miden-multisig-client/src/error.rs).  The source stringifies the
inner errors via `to_string`; the model keeps them structured. -/
inductive MultisigClientError where
  | SetupAccount (msg : String)
  | TxProposal (e : TransactionProposalError)
  | TxExecution (msg : String)
  | TxSubmission (msg : String)
  deriving DecidableEq, Repr

/-- The message rendered by `ClientError`'s `Display` impl; opaque. -/
def clientErrorMessage : ClientError → String
  | .TransactionExecutorUnauthorized _ => "unauthorized"
  | .otherClient msg => msg

/-- `MultisigClient::propose_multisig_transaction`
(crates/miden-multisig-client/src/lib.rs, lines 99-114).  The SDK's
execution outcome is the oracle parameter `execResult`.  Translated match
arms in source order: `Ok(_)` -> `DryRunExpected` error;
`Err(Unauthorized(summary))` -> `Ok(summary)`; any other error is wrapped
into `TransactionProposalError::Other` and propagated. -/
def propose_multisig_transaction
    (execResult : Except ClientError TxResult) :
    Except MultisigClientError Bytes :=
  match execResult with
  | .ok _ => .error (.TxProposal .DryRunExpected)
  | .error (.TransactionExecutorUnauthorized summary) => .ok summary
  | .error e => .error (.TxProposal (.OtherProposal (clientErrorMessage e)))

/-- `TransactionExecutionError`
(crates/miden-multisig-client/src/error.rs). -/
inductive TransactionExecutionError where
  | StorageSlotIndexOutOfBounds
  | MissingNumApprovers
  | InvalidNumApprovers
  | UnsupportedNumApprovers
  | NumSignaturesMismatch
  | PubKeyStorageSlotMap
  deriving DecidableEq, Repr

/-- The advice map of a transaction request: association list keyed by
words; `insert` overwrites the value at an existing key (BTreeMap
semantics) and otherwise appends. -/
def adviceInsert (m : List (Word × Bytes)) (k : Word) (v : Bytes) :
    List (Word × Bytes) :=
  if m.any (fun p => p.1 == k) then
    m.map (fun p => if p.1 == k then (k, v) else p)
  else
    m ++ [(k, v)]

/-- The on-chain storage of a multisig account as read by
`execute_multisig_transaction`: indexed storage slots (slot 0 word's
element 1 holds `num_approvers`) and the slot-1 map from the approver
index `i` (key `word(i,0,0,0)`) to the 32-byte public key commitment. -/
structure AccountStorage where
  slots : List (List Nat)
  pubKeyMap : Nat → Option Word

/-- `MultisigClient::execute_multisig_transaction`
(crates/miden-multisig-client/src/lib.rs, lines 118-171), up to the final
SDK execution call: read `num_approvers` from storage slot 0 element 1,
check the signature vector length, and for each `Some(signature)` at
index `i` look up `pub_key_commit_i` in the slot-1 map and insert
`(Rpo256::merge(pub_key, tx_summary_commitment), signature)` into the
transaction request's advice map.  `merge` is the opaque RPO-256 two-word
merge primitive; the first component of the returned pair is the final
advice map and the second the chronological log of performed
insertions. -/
def execute_multisig_transaction (merge : Word → Word → Word)
    (storage : AccountStorage) (txSummaryCommit : Word)
    (adviceMap : List (Word × Bytes)) (signatures : List (Option Bytes)) :
    Except TransactionExecutionError
      (List (Word × Bytes) × List (Word × Bytes)) :=
  match storage.slots[0]? with
  | none => .error .StorageSlotIndexOutOfBounds
  | some configWord =>
    match configWord[1]? with
    | none => .error .MissingNumApprovers
    | some felt =>
      if felt ≥ 2 ^ 32 then .error .InvalidNumApprovers
      else
        let numApprovers := felt
        if signatures.length != numApprovers then
          .error .NumSignaturesMismatch
        else
          ((List.range numApprovers).zip signatures |>.filterMap
              (fun p => p.2.map (fun s => (p.1, s)))).foldlM
            (fun st p =>
              match storage.pubKeyMap p.1 with
              | none => .error .PubKeyStorageSlotMap
              | some pubKey =>
                .ok (adviceInsert st.1 (merge pubKey txSummaryCommit) p.2,
                     st.2 ++ [(merge pubKey txSummaryCommit, p.2)]))
            (adviceMap, [])

/-! ## Helper lemmas about the store operations -/

/-- An approver with a mapping row joined to the transaction's account
passes the EXISTS validation. -/
theorem validate_of_joined {db : Db} {txId : TxId} {a : Addr}
    {t : TxRow} {m : MappingRow} (htmem : t ∈ db.tx) (hmmem : m ∈ db.mapping)
    (hid : t.id = txId) (hacct : m.multisigAccountAddress =
      t.multisigAccountAddress) (happ : m.approverAddress = a) :
    validate_approver_address_by_tx_id db txId a = true := by
  unfold validate_approver_address_by_tx_id
  rw [List.any_eq_true]
  refine ⟨m, hmmem, ?_⟩
  rw [Bool.and_eq_true, List.any_eq_true]
  exact ⟨⟨t, htmem, by simp [hid, hacct]⟩, by simp [happ]⟩

/-- When no transaction row carries the id, the EXISTS validation fails:
the inner join against `tx` is empty. -/
theorem validate_false_of_no_tx {db : Db} {txId : TxId} {a : Addr}
    (h : ∀ t ∈ db.tx, t.id ≠ txId) :
    validate_approver_address_by_tx_id db txId a = false := by
  unfold validate_approver_address_by_tx_id
  rw [List.any_eq_false]
  intro m _
  intro hm
  rw [Bool.and_eq_true, List.any_eq_true] at hm
  obtain ⟨⟨t, ht, hp⟩, -⟩ := hm
  rw [Bool.and_eq_true] at hp
  exact h t ht (by simpa using hp.1)

/-- An unauthorized approver: `add_multisig_tx_signature` returns `none`
and leaves the state untouched. -/
theorem add_signature_not_joined {db : Db} {txId : TxId} {a : Addr}
    {sig : Bytes} {now : Nat}
    (h : validate_approver_address_by_tx_id db txId a = false) :
    add_multisig_tx_signature db txId a sig now = .ok (none, db) := by
  unfold add_multisig_tx_signature
  rw [h]
  rfl

/-- A joined approver without a prior signature: the signature row is
inserted and the returned boolean compares the re-read count (over the
post-insert state of the same transaction) with the account's
threshold. -/
theorem add_signature_joined_spec {db : Db} {txId : TxId} {a : Addr}
    {sig : Bytes} {now : Nat} {t : TxRow} {acct : MultisigAccountRow}
    (hval : validate_approver_address_by_tx_id db txId a = true)
    (hdup : ∀ s ∈ db.signature, ¬(s.txId = txId ∧ s.approverAddress = a))
    (hfind : db.tx.find? (fun t => t.id == txId) = some t)
    (hacct : fetch_mutisig_account_by_address db t.multisigAccountAddress
      = some acct) :
    add_multisig_tx_signature db txId a sig now =
      .ok (some (decide
        ((((signaturesForTx db txId).length + 1 : Nat) : Int)
          ≥ acct.threshold)),
        { db with signature := db.signature ++
            [{ txId := txId, approverAddress := a, signatureBytes := sig,
               createdAt := now }] }) := by
  have hnodup : db.signature.any (fun s =>
      s.txId == txId && s.approverAddress == a) = false := by
    rw [List.any_eq_false]
    intro s hs hcontra
    rw [Bool.and_eq_true, beq_iff_eq, beq_iff_eq] at hcontra
    exact hdup s hs hcontra
  have hfind1 : (({ db with signature := db.signature ++
      [{ txId := txId, approverAddress := a, signatureBytes := sig,
         createdAt := now }] } : Db)).tx.find? (fun t => t.id == txId)
      = some t := hfind
  have hacct1 : fetch_mutisig_account_by_address
      ({ db with signature := db.signature ++
        [{ txId := txId, approverAddress := a, signatureBytes := sig,
           createdAt := now }] } : Db) t.multisigAccountAddress
      = some acct := hacct
  have hcount : signaturesForTx
      ({ db with signature := db.signature ++
        [{ txId := txId, approverAddress := a, signatureBytes := sig,
           createdAt := now }] } : Db) txId
      = signaturesForTx db txId ++
        [{ txId := txId, approverAddress := a, signatureBytes := sig,
           createdAt := now }] := by
    unfold signaturesForTx
    simp [List.filter_append]
  unfold add_multisig_tx_signature save_new_signature
    fetch_tx_with_signature_count_by_id
  rw [hval, hnodup]
  simp [hfind1, hacct1, hcount]

/-- Updating the status of an existing transaction (the id matched by
exactly one row, as the primary key guarantees) succeeds and rewrites
that row's status unconditionally — the current status is not consulted. -/
theorem update_status_existing {db : Db} {txId : TxId} {s : TxStatus}
    (h : (db.tx.filter (fun t => t.id == txId)).length = 1) :
    update_multisig_tx_status_by_id db txId s =
      .ok { db with tx := db.tx.map (fun t =>
        if t.id == txId then { t with status := s } else t) } := by
  unfold update_multisig_tx_status_by_id update_status_by_tx_id
  simp [h]

/-- Updating the status of a missing transaction id affects no row and
surfaces as `NotFound`. -/
theorem update_status_missing {db : Db} {txId : TxId} {s : TxStatus}
    (h : ∀ t ∈ db.tx, t.id ≠ txId) :
    update_multisig_tx_status_by_id db txId s =
      .error (.NotFound "tx id not found") := by
  unfold update_multisig_tx_status_by_id update_status_by_tx_id
  have : db.tx.filter (fun t => t.id == txId) = [] := by
    rw [List.filter_eq_nil_iff]
    intro t ht
    simp [h t ht]
  simp [this]

/-! ## Concrete fixtures used by counterexamples and witnesses -/

/-- The empty database. -/
def dbEmpty : Db :=
  { multisigAccount := [], approver := [], mapping := [], tx := [],
    signature := [] }

/-- A threshold-2 account row used by the concrete fixtures. -/
def acctRowW : MultisigAccountRow :=
  { address := "macct", kind := .publicMode, threshold := 2, createdAt := 0 }

/-- A database holding one threshold-2 account with three joined approvers
and one pending transaction (id 7) without signatures. -/
def dbW : Db :=
  { multisigAccount := [acctRowW],
    approver := [⟨"alice", [1], 0⟩, ⟨"bob", [2], 0⟩, ⟨"charlie", [3], 0⟩],
    mapping := [⟨"macct", "alice", 0⟩, ⟨"macct", "bob", 1⟩,
                ⟨"macct", "charlie", 2⟩],
    tx := [⟨7, "macct", .pending, [9], [8], [5], 0⟩],
    signature := [] }

/-- The fixture database after alice has signed transaction 7. -/
def dbWalice : Db := { dbW with signature := [⟨7, "alice", [4], 1⟩] }

/-! ## C7 -/

/-- C7: for every `ProposeMultisigTx` call, if the SDK's dry-run execution
fails with the distinguished `Unauthorized(summary)` error the operation
returns that summary as its success value; if the SDK execution returns
`Ok` the operation fails with `DryRunExpected`; any other SDK error is
propagated as an error. -/
theorem claim_C7_propose_dry_run (execResult : Except ClientError TxResult) :
    (∀ r, execResult = .ok r →
      propose_multisig_transaction execResult =
        .error (.TxProposal .DryRunExpected)) ∧
    (∀ s, execResult = .error (.TransactionExecutorUnauthorized s) →
      propose_multisig_transaction execResult = .ok s) ∧
    (∀ m, execResult = .error (.otherClient m) →
      propose_multisig_transaction execResult =
        .error (.TxProposal (.OtherProposal m))) := by
  refine ⟨?_, ?_, ?_⟩ <;> rintro x rfl <;> rfl

/-- C7 witness: the three arms evaluated at concrete SDK outcomes. -/
theorem claim_C7_propose_dry_run_witness :
    propose_multisig_transaction
      (.error (.TransactionExecutorUnauthorized [7])) = .ok [7] ∧
    propose_multisig_transaction (.ok 3) =
      .error (.TxProposal .DryRunExpected) ∧
    propose_multisig_transaction (.error (.otherClient "boom")) =
      .error (.TxProposal (.OtherProposal "boom")) :=
  ⟨(claim_C7_propose_dry_run _).2.1 [7] rfl,
   (claim_C7_propose_dry_run _).1 3 rfl,
   (claim_C7_propose_dry_run _).2.2 "boom" rfl⟩

/-! ## C8 -/

/-- C8 counterexample: a creation input with threshold 2 over a single
approver fails with the request-validation kind `ExcessThreshold`, not
with the store kind `InvalidValue`. -/
theorem claim_C8_counterexample :
    create_account_pipeline dbEmpty 2 ["alice"] [[1]] "macct" 0 =
      .requestError .ExcessThreshold ∧
    create_account_pipeline dbEmpty 2 ["alice"] [[1]] "macct" 0 ≠
      .engineError (.MultisigStore .InvalidValue) := by
  constructor <;> decide

/-- C8 (amended): every account-creation input whose threshold exceeds the
number of approvers fails at request validation with the
`ExcessThreshold` error kind, before any store call (nothing is stored). -/
theorem claim_C8_threshold_excess (db : Db) (threshold : Nat)
    (approvers : List Addr) (pubKeyCommits : List Bytes)
    (midenAccountAddress : Addr) (now : Nat)
    (h1 : approvers ≠ []) (h2 : pubKeyCommits ≠ [])
    (h3 : approvers.length = pubKeyCommits.length)
    (h4 : threshold > approvers.length) :
    create_account_pipeline db threshold approvers pubKeyCommits
      midenAccountAddress now = .requestError .ExcessThreshold := by
  unfold create_account_pipeline CreateMultisigAccountRequest.new
  have h5 : pubKeyCommits.length < threshold := h3 ▸ h4
  simp [h1, h2, h3, h4, h5]

/-- C8 witness: the amended claim evaluated at a concrete input with
threshold 3 over two approvers. -/
theorem claim_C8_threshold_excess_witness :
    create_account_pipeline dbEmpty 3 ["a", "b"] [[1], [2]] "macct" 0 =
      .requestError .ExcessThreshold :=
  claim_C8_threshold_excess dbEmpty 3 ["a", "b"] [[1], [2]] "macct" 0
    (by decide) (by decide) (by decide) (by decide)

/-! ## C10 -/

/-- C10: for a tx id with no transaction row, the EXISTS validation's
inner join is empty, so `add_multisig_tx_signature` returns `Ok(None)` —
the same value as for an unauthorized approver — no row is inserted, and
the engine's `add_signature` reports the "approver not permitted" error
rather than a not-found error. -/
theorem claim_C10_missing_tx (db : Db) (txId : TxId) (a : Addr)
    (sig : Bytes) (now : Nat)
    (reply : Except ProcessMultisigTxError TxResult)
    (h : ∀ t ∈ db.tx, t.id ≠ txId) :
    add_multisig_tx_signature db txId a sig now = .ok (none, db) ∧
    engine_add_signature db txId a sig now reply =
      (.error (.Other "approver not permitted to add signature for tx"),
        db, []) := by
  have hval := @validate_false_of_no_tx db txId a h
  have hadd := @add_signature_not_joined db txId a sig now hval
  refine ⟨hadd, ?_⟩
  unfold engine_add_signature
  rw [hadd]

/-- C10 witness: transaction id 5 has no row in the fixture database. -/
theorem claim_C10_missing_tx_witness :
    add_multisig_tx_signature dbW 5 "alice" [1] 0 = .ok (none, dbW) ∧
    engine_add_signature dbW 5 "alice" [1] 0 (.ok 0) =
      (.error (.Other "approver not permitted to add signature for tx"),
        dbW, []) :=
  claim_C10_missing_tx dbW 5 "alice" [1] 0 (.ok 0) (by decide)

/-! ## C1 -/

/-- The fixture database with transaction 7 already in the terminal
`success` status. -/
def dbTerminal : Db :=
  { dbW with tx := [⟨7, "macct", .success, [9], [8], [5], 0⟩] }

/-- C1 counterexample: a status write to a transaction already in the
terminal `success` status is not rejected: `update_multisig_tx_status_by_id`
succeeds and overwrites the terminal status with `failure` (the UPDATE
filters only on the id and never consults the current status). -/
theorem claim_C1_counterexample :
    dbTerminal.tx.map (fun t => t.status) = [.success] ∧
    update_multisig_tx_status_by_id dbTerminal 7 .failure =
      .ok { dbTerminal with
              tx := [⟨7, "macct", .failure, [9], [8], [5], 0⟩] } := by
  constructor <;> decide

/-- C1 (amended): status is `pending` on insert;
`update_multisig_tx_status_by_id` sets the status of the row with the
given id unconditionally — the row's current status, pending or terminal,
is not consulted, so writes to non-pending transactions are applied
rather than rejected — and fails with `NotFound` iff no row carries the
id. -/
theorem claim_C1_status_machine (db : Db) (addr : Addr)
    (txReq txSum txCom : Bytes) (newId : TxId) (now : Nat) (txId : TxId)
    (s : TxStatus) :
    ((save_new_tx db addr txReq txSum txCom newId now).1.tx =
      db.tx ++ [{
        id := newId,
        multisigAccountAddress := addr,
        status := .pending,
        txRequest := txReq,
        txSummary := txSum,
        txSummaryCommit := txCom,
        createdAt := now }]) ∧
    ((db.tx.filter (fun t => t.id == txId)).length = 1 →
      update_multisig_tx_status_by_id db txId s =
        .ok { db with tx := db.tx.map (fun t =>
          if t.id == txId then { t with status := s } else t) }) ∧
    ((∀ t ∈ db.tx, t.id ≠ txId) →
      update_multisig_tx_status_by_id db txId s =
        .error (.NotFound "tx id not found")) :=
  ⟨rfl, fun h => update_status_existing h, fun h => update_status_missing h⟩

/-- C1 witness: the amended claim evaluated on the fixtures — an existing
id is overwritten, an unknown id yields `NotFound`. -/
theorem claim_C1_status_machine_witness :
    update_multisig_tx_status_by_id dbW 7 .failure =
      .ok { dbW with tx := [⟨7, "macct", .failure, [9], [8], [5], 0⟩] } ∧
    update_multisig_tx_status_by_id dbW 99 .success =
      .error (.NotFound "tx id not found") := by
  have h1 := claim_C1_status_machine dbW "macct" [9] [8] [5] 7 0 7 .failure
  have h2 := claim_C1_status_machine dbW "x" [] [] [] 0 0 99 .success
  exact ⟨by rw [h1.2.1 (by decide)]; decide, h2.2.2 (by decide)⟩

/-! ## C2 -/

/-- C2 counterexample: a joined approver that has already signed the
transaction: the call returns a `Store` uniqueness error and inserts
nothing — not `Some(b)` as the claim states for every joined approver. -/
theorem claim_C2_counterexample :
    validate_approver_address_by_tx_id dbWalice 7 "alice" = true ∧
    add_multisig_tx_signature dbWalice 7 "alice" [6] 2 =
      .error (.Store .uniqueViolation) := by
  constructor <;> decide

/-- C2 (amended): for every `add_multisig_tx_signature` call: a
non-joined approver yields `Ok(None)` with the state unchanged; a joined
approver without a prior signature on the transaction (with the
transaction row and its account row present) gets the signature row
inserted and `Some(b)` returned, where `b` compares the signature count
re-read over the post-insert state of the same database transaction with
the account's threshold; a joined approver that already signed gets a
`Store` uniqueness error and the transaction rolls back (no insert). -/
theorem claim_C2_add_signature_contract (db : Db) (txId : TxId) (a : Addr)
    (sig : Bytes) (now : Nat) (t : TxRow) (acct : MultisigAccountRow) :
    (validate_approver_address_by_tx_id db txId a = false →
      add_multisig_tx_signature db txId a sig now = .ok (none, db)) ∧
    (validate_approver_address_by_tx_id db txId a = true →
      (∀ s ∈ db.signature, ¬(s.txId = txId ∧ s.approverAddress = a)) →
      db.tx.find? (fun t => t.id == txId) = some t →
      fetch_mutisig_account_by_address db t.multisigAccountAddress =
        some acct →
      add_multisig_tx_signature db txId a sig now =
        .ok (some (decide
          (((signaturesForTx { db with signature := db.signature ++
              [{ txId := txId, approverAddress := a, signatureBytes := sig,
                 createdAt := now }] } txId).length : Int)
            ≥ acct.threshold)),
          { db with signature := db.signature ++
              [{ txId := txId, approverAddress := a, signatureBytes := sig,
                 createdAt := now }] })) ∧
    (validate_approver_address_by_tx_id db txId a = true →
      (∃ s ∈ db.signature, s.txId = txId ∧ s.approverAddress = a) →
      add_multisig_tx_signature db txId a sig now =
        .error (.Store .uniqueViolation)) := by
  refine ⟨fun h => add_signature_not_joined h, ?_, ?_⟩
  · intro hval hdup hfind hacct
    have hcount : signaturesForTx
        ({ db with signature := db.signature ++
          [{ txId := txId, approverAddress := a, signatureBytes := sig,
             createdAt := now }] } : Db) txId
        = signaturesForTx db txId ++
          [{ txId := txId, approverAddress := a, signatureBytes := sig,
             createdAt := now }] := by
      unfold signaturesForTx
      simp [List.filter_append]
    rw [add_signature_joined_spec hval hdup hfind hacct, hcount]
    simp
  · intro hval hdup
    obtain ⟨s, hs, hid, ha⟩ := hdup
    have hany : db.signature.any (fun s =>
        s.txId == txId && s.approverAddress == a) = true := by
      rw [List.any_eq_true]
      exact ⟨s, hs, by simp [hid, ha]⟩
    unfold add_multisig_tx_signature save_new_signature
    rw [hval, hany]
    rfl

/-- C2 witness: the three arms evaluated on the fixtures — dave is not
joined, alice signs freshly (count 1 below threshold 2), and a second
alice submission violates uniqueness. -/
theorem claim_C2_add_signature_contract_witness :
    add_multisig_tx_signature dbW 7 "dave" [4] 1 = .ok (none, dbW) ∧
    add_multisig_tx_signature dbW 7 "alice" [4] 1 =
      .ok (some false, dbWalice) ∧
    add_multisig_tx_signature dbWalice 7 "alice" [6] 2 =
      .error (.Store .uniqueViolation) := by
  have h1 := claim_C2_add_signature_contract dbW 7 "dave" [4] 1
    ⟨7, "macct", .pending, [9], [8], [5], 0⟩ acctRowW
  have h2 := claim_C2_add_signature_contract dbW 7 "alice" [4] 1
    ⟨7, "macct", .pending, [9], [8], [5], 0⟩ acctRowW
  have h3 := claim_C2_add_signature_contract dbWalice 7 "alice" [6] 2
    ⟨7, "macct", .pending, [9], [8], [5], 0⟩ acctRowW
  refine ⟨h1.1 (by decide), ?_, h3.2.2 (by decide) ?_⟩
  · rw [h2.2.1 (by decide) (by decide) (by decide) (by decide)]
    decide
  · exact ⟨⟨7, "alice", [4], 1⟩, by decide, by decide, by decide⟩

/-! ## C3 -/

/-- C3: for every engine `add_signature` call whose store
`AddSignatureTx` returns `Some(false)`, the engine returns `Ok(None)`
and posts nothing; for every call where it returns `Some(true)`, the
engine loads the ordered signatures, posts exactly one
`ProcessMultisigTx` message, and on a successful runtime reply sets the
transaction status to success and returns `Ok(Some(result))`, while on an
error reply it sets the status to failure and returns that error wrapped
in the `ProcessMultisigTx` kind. -/
theorem claim_C3_engine_add_signature (db db1 : Db) (txId : TxId)
    (a : Addr) (sig : Bytes) (now : Nat)
    (reply : Except ProcessMultisigTxError TxResult) :
    (add_multisig_tx_signature db txId a sig now = .ok (some false, db1) →
      engine_add_signature db txId a sig now reply = (.ok none, db1, [])) ∧
    (∀ sigs txRow,
      add_multisig_tx_signature db txId a sig now = .ok (some true, db1) →
      get_signatures_of_all_approvers_with_multisig_tx_by_tx_id db1 txId =
        .ok (sigs, txRow) →
      (db1.tx.filter (fun t => t.id == txId)).length = 1 →
      (∀ r, reply = .ok r →
        engine_add_signature db txId a sig now reply =
          (.ok (some r),
           { db1 with tx := db1.tx.map (fun t =>
               if t.id == txId then { t with status := .success } else t) },
           [{ multisigAccountAddress := txRow.multisigAccountAddress,
              txRequest := txRow.txRequest,
              txSummary := txRow.txSummary,
              signatures := sigs }])) ∧
      (∀ e, reply = .error e →
        engine_add_signature db txId a sig now reply =
          (.error (.ProcessMultisigTx e),
           { db1 with tx := db1.tx.map (fun t =>
               if t.id == txId then { t with status := .failure } else t) },
           [{ multisigAccountAddress := txRow.multisigAccountAddress,
              txRequest := txRow.txRequest,
              txSummary := txRow.txSummary,
              signatures := sigs }]))) := by
  constructor
  · intro h
    unfold engine_add_signature
    rw [h]
  · intro sigs txRow h1 h2 hlen
    constructor
    · rintro r rfl
      unfold engine_add_signature
      rw [h1]
      simp only [h2, update_status_existing hlen]
    · rintro e rfl
      unfold engine_add_signature
      rw [h1]
      simp only [h2, update_status_existing hlen]

/-- C3 witness: with alice's signature stored, bob's submission meets the
threshold; a successful reply yields `Ok(Some(42))` and status success,
an error reply yields the wrapped error and status failure. -/
theorem claim_C3_engine_add_signature_witness :
    engine_add_signature dbWalice 7 "bob" [5] 2 (.ok 42) =
      (.ok (some 42),
       { dbWalice with
           tx := [⟨7, "macct", .success, [9], [8], [5], 0⟩],
           signature := [⟨7, "alice", [4], 1⟩, ⟨7, "bob", [5], 2⟩] },
       [{ multisigAccountAddress := "macct", txRequest := [9],
          txSummary := [8],
          signatures := [some [4], some [5], none] }]) ∧
    engine_add_signature dbWalice 7 "bob" [5] 2 (.error ⟨"boom"⟩) =
      (.error (.ProcessMultisigTx ⟨"boom"⟩),
       { dbWalice with
           tx := [⟨7, "macct", .failure, [9], [8], [5], 0⟩],
           signature := [⟨7, "alice", [4], 1⟩, ⟨7, "bob", [5], 2⟩] },
       [{ multisigAccountAddress := "macct", txRequest := [9],
          txSummary := [8],
          signatures := [some [4], some [5], none] }]) := by
  have hok := (claim_C3_engine_add_signature dbWalice
    { dbWalice with signature := [⟨7, "alice", [4], 1⟩, ⟨7, "bob", [5], 2⟩] }
    7 "bob" [5] 2 (.ok 42)).2 [some [4], some [5], none]
    ⟨7, "macct", .pending, [9], [8], [5], 0⟩
    (by decide) (by decide) (by decide)
  have herr := (claim_C3_engine_add_signature dbWalice
    { dbWalice with signature := [⟨7, "alice", [4], 1⟩, ⟨7, "bob", [5], 2⟩] }
    7 "bob" [5] 2 (.error ⟨"boom"⟩)).2 [some [4], some [5], none]
    ⟨7, "macct", .pending, [9], [8], [5], 0⟩
    (by decide) (by decide) (by decide)
  constructor
  · rw [hok.1 42 rfl]; decide
  · rw [herr.2 ⟨"boom"⟩ rfl]; decide

/-! ## C5 -/

/-- Characterization of the signature-insertion loop of
`execute_multisig_transaction`: when every public-key lookup succeeds,
the fold returns the advice map with all insertions applied and logs the
insertions in order. -/
theorem execute_fold_spec (merge : Word → Word → Word)
    (pkMap : Nat → Option Word) (pk : Nat → Word) (msg : Word) :
    ∀ (pairs : List (Nat × Bytes)) (am acc : List (Word × Bytes)),
    (∀ p ∈ pairs, pkMap p.1 = some (pk p.1)) →
    ∃ amFinal,
      pairs.foldlM (fun st p =>
        match pkMap p.1 with
        | none => Except.error TransactionExecutionError.PubKeyStorageSlotMap
        | some pubKey =>
          .ok (adviceInsert st.1 (merge pubKey msg) p.2,
               st.2 ++ [(merge pubKey msg, p.2)])) (am, acc) =
      .ok (amFinal, acc ++ pairs.map
        (fun p => (merge (pk p.1) msg, p.2))) := by
  intro pairs
  induction pairs with
  | nil =>
    intro am acc _
    refine ⟨am, ?_⟩
    simp only [List.foldlM_nil, List.map_nil, List.append_nil]
    rfl
  | cons p rest ih =>
    intro am acc hall
    have hp := hall p (List.mem_cons_self p rest)
    have hrest : ∀ q ∈ rest, pkMap q.1 = some (pk q.1) :=
      fun q hq => hall q (List.mem_cons_of_mem p hq)
    obtain ⟨amFinal, hres⟩ := ih (adviceInsert am (merge (pk p.1) msg) p.2)
      (acc ++ [(merge (pk p.1) msg, p.2)]) hrest
    refine ⟨amFinal, ?_⟩
    rw [List.foldlM_cons, hp]
    simpa [List.append_assoc] using hres

/-- C5: for every `execute_multisig_transaction` signature vector (of
length equal to the on-chain `num_approvers`) and every index `i` holding
`Some(signature)`, the key inserted into the transaction request's advice
map equals `merge(pub_key_commit_i, tx_summary_commitment)` — the
public-key commitment for index `i` first and the summary commitment
second — and the value inserted equals the raw signature bytes; positions
holding `None` insert nothing. -/
theorem claim_C5_advice_map_insertions (merge : Word → Word → Word)
    (storage : AccountStorage) (txSummaryCommit : Word)
    (adviceMap : List (Word × Bytes)) (signatures : List (Option Bytes))
    (cfg : List Nat) (N : Nat) (pk : Nat → Word)
    (hslot : storage.slots[0]? = some cfg)
    (hcfg : cfg[1]? = some N) (hN : N < 2 ^ 32)
    (hlen : signatures.length = N)
    (hpk : ∀ i < N, storage.pubKeyMap i = some (pk i)) :
    ∃ amFinal insertions,
      execute_multisig_transaction merge storage txSummaryCommit adviceMap
        signatures = .ok (amFinal, insertions) ∧
      insertions = signatures.enum.filterMap
        (fun p => p.2.map
          (fun s => (merge (pk p.1) txSummaryCommit, s))) ∧
      (∀ i s, signatures[i]? = some (some s) →
        (merge (pk i) txSummaryCommit, s) ∈ insertions) ∧
      (∀ kv ∈ insertions, ∃ i s, signatures[i]? = some (some s) ∧
        kv = (merge (pk i) txSummaryCommit, s)) := by
  have hzip : (List.range N).zip signatures = signatures.enum := by
    rw [List.enum_eq_zip_range, hlen]
  have hmem : ∀ p ∈ signatures.enum.filterMap
      (fun p => p.2.map (fun s => (p.1, s))),
      storage.pubKeyMap p.1 = some (pk p.1) := by
    intro p hp
    rw [List.mem_filterMap] at hp
    obtain ⟨q, hq, hmap⟩ := hp
    rw [List.mk_mem_enum_iff_getElem?] at hq
    obtain ⟨s, hs, rfl⟩ := Option.map_eq_some'.mp hmap
    have hlt : q.1 < signatures.length := by
      by_contra hge
      rw [List.getElem?_eq_none (Nat.le_of_not_lt hge)] at hq
      exact Option.noConfusion hq
    exact hpk q.1 (hlen ▸ hlt)
  obtain ⟨amFinal, hfold⟩ := execute_fold_spec merge storage.pubKeyMap pk
    txSummaryCommit
    (signatures.enum.filterMap (fun p => p.2.map (fun s => (p.1, s))))
    adviceMap [] hmem
  rw [List.nil_append] at hfold
  refine ⟨amFinal,
    (signatures.enum.filterMap (fun p => p.2.map (fun s => (p.1, s)))).map
      (fun p => (merge (pk p.1) txSummaryCommit, p.2)),
    ?_, ?_, ?_, ?_⟩
  · unfold execute_multisig_transaction
    rw [hslot]
    simp only [hcfg]
    rw [if_neg (by omega), hlen]
    simp only [bne_self_eq_false, Bool.false_eq_true, if_false, hzip]
    exact hfold
  · rw [List.map_filterMap]
    congr 1
    funext p
    cases h2 : p.2 <;> simp
  · intro i s hs
    rw [List.mem_map]
    refine ⟨(i, s), ?_, rfl⟩
    rw [List.mem_filterMap]
    exact ⟨(i, some s), List.mk_mem_enum_iff_getElem?.mpr hs, rfl⟩
  · intro kv hkv
    rw [List.mem_map] at hkv
    obtain ⟨p, hp, rfl⟩ := hkv
    rw [List.mem_filterMap] at hp
    obtain ⟨q, hq, hmap⟩ := hp
    rw [List.mk_mem_enum_iff_getElem?] at hq
    obtain ⟨s, hs, rfl⟩ := Option.map_eq_some'.mp hmap
    rw [hs] at hq
    exact ⟨q.1, s, hq, rfl⟩

/-- A concrete opaque stand-in for the RPO-256 two-word merge. -/
def mergeW : Word → Word → Word := fun a b => 1000 * a + b

/-- Concrete account storage: slot 0 word `[0, 2]` (two approvers), slot 1
map holding public-key commitments 10 and 20 for indices 0 and 1. -/
def storageW : AccountStorage :=
  { slots := [[0, 2]],
    pubKeyMap := fun i =>
      if i == 0 then some 10 else if i == 1 then some 20 else none }

/-- The public-key commitments of `storageW` as a total function. -/
def pkW : Nat → Word := fun i => if i == 0 then 10 else 20

/-- C5 witness: the claim applied to `storageW` with signatures
`[Some [4], None]`: index 0 inserts key `merge(10, 7)` with value `[4]`,
index 1 inserts nothing. -/
theorem claim_C5_advice_map_insertions_witness :
    ∃ amFinal insertions,
      execute_multisig_transaction mergeW storageW 7 [] [some [4], none] =
        .ok (amFinal, insertions) ∧
      insertions = ([some [4], none] : List (Option Bytes)).enum.filterMap
        (fun p => p.2.map (fun s => (mergeW (pkW p.1) 7, s))) ∧
      (∀ i s, ([some [4], none] : List (Option Bytes))[i]? =
          some (some s) → (mergeW (pkW i) 7, s) ∈ insertions) ∧
      (∀ kv ∈ insertions, ∃ i s,
        ([some [4], none] : List (Option Bytes))[i]? = some (some s) ∧
        kv = (mergeW (pkW i) 7, s)) :=
  claim_C5_advice_map_insertions mergeW storageW 7 [] [some [4], none]
    [0, 2] 2 pkW rfl rfl (by decide) rfl (by decide)

/-! ## C4 -/

/-- Sorting by `approver_index` produces a permutation of the account's
mapping rows. -/
theorem mappingRowsSorted_perm (db : Db) (addr : Addr) :
    (mappingRowsSorted db addr).Perm
      (db.mapping.filter (fun m => m.multisigAccountAddress == addr)) :=
  List.perm_insertionSort mappingLe _

/-- Sorting by `approver_index` yields a list sorted by the index. -/
theorem mappingRowsSorted_sorted (db : Db) (addr : Addr) :
    (mappingRowsSorted db addr).Sorted mappingLe := by
  haveI : IsTotal MappingRow mappingLe :=
    ⟨fun a b => Int.le_total a.approverIndex b.approverIndex⟩
  haveI : IsTrans MappingRow mappingLe :=
    ⟨fun a b c hab hbc => le_trans hab hbc⟩
  exact List.sorted_insertionSort mappingLe _

/-- C4: for every transaction whose account has `N` approvers with dense
indices `0..N-1`, the positionally aggregated load returns exactly `N`
optional signatures ordered by `approver_index` ascending: position `i`
holds the stored signature of the approver with index `i` when present
and `None` otherwise. -/
theorem claim_C4_ordered_signatures (db : Db) (txId : TxId) (t : TxRow)
    (N : Nat)
    (hfind : db.tx.find? (fun t => t.id == txId) = some t)
    (hN : (db.mapping.filter (fun m =>
      m.multisigAccountAddress == t.multisigAccountAddress)).length = N)
    (hdense : ((db.mapping.filter (fun m =>
      m.multisigAccountAddress == t.multisigAccountAddress)).map
        (fun m => m.approverIndex)).Perm
      ((List.range N).map Int.ofNat))
    (hpos : 1 ≤ N) :
    ∃ sigs,
      get_signatures_of_all_approvers_with_multisig_tx_by_tx_id db txId =
        .ok (sigs, t) ∧
      sigs.length = N ∧
      ∀ i, i < N →
        ∀ m ∈ db.mapping.filter (fun m =>
          m.multisigAccountAddress == t.multisigAccountAddress),
          m.approverIndex = (i : Int) →
          sigs[i]? = some ((db.signature.find? (fun s =>
            s.txId == txId &&
              s.approverAddress == m.approverAddress)).map
                (fun s => s.signatureBytes)) := by
  have hperm := mappingRowsSorted_perm db t.multisigAccountAddress
  have hsorted := mappingRowsSorted_sorted db t.multisigAccountAddress
  have hlen : (mappingRowsSorted db t.multisigAccountAddress).length = N :=
    (hperm.length_eq).trans hN
  have hnonempty :
      (mappingRowsSorted db t.multisigAccountAddress).isEmpty = false := by
    rw [List.isEmpty_eq_false_iff_exists_mem]
    cases hrows : mappingRowsSorted db t.multisigAccountAddress with
    | nil => rw [hrows] at hlen; simp at hlen; omega
    | cons x xs => exact ⟨x, hrows ▸ List.mem_cons_self x xs⟩
  have hidx : (mappingRowsSorted db t.multisigAccountAddress).map
      (fun m => m.approverIndex) = (List.range N).map Int.ofNat := by
    refine @List.eq_of_perm_of_sorted Int (fun a b => a ≤ b) _ _ _
      ((hperm.map _).trans hdense) ?_ ?_
    · exact List.pairwise_map.mpr hsorted
    · exact List.pairwise_map.mpr ((List.pairwise_lt_range N).imp
        (fun h => Int.ofNat_le.mpr (Nat.le_of_lt h)))
  refine ⟨(mappingRowsSorted db t.multisigAccountAddress).map (fun m =>
    (db.signature.find? (fun s =>
      s.txId == txId && s.approverAddress == m.approverAddress)).map
        (fun s => s.signatureBytes)), ?_, ?_, ?_⟩
  · unfold get_signatures_of_all_approvers_with_multisig_tx_by_tx_id
      fetch_all_signature_bytes_with_tx_by_tx_id_in_order_of_approvers
    rw [hfind]
    simp only [hnonempty, Bool.false_eq_true, if_false]
  · rw [List.length_map, hlen]
  · intro i hi m hm hmi
    have hmem : m ∈ mappingRowsSorted db t.multisigAccountAddress :=
      hperm.symm.subset hm
    obtain ⟨j, hj, hjm⟩ := List.mem_iff_getElem.mp hmem
    have hjN : j < N := by rwa [hlen] at hj
    have hji : j = i := by
      have h1 : ((mappingRowsSorted db t.multisigAccountAddress).map
          (fun m => m.approverIndex))[j]? = some m.approverIndex := by
        rw [List.getElem?_map, List.getElem?_eq_getElem hj, hjm]
        rfl
      rw [hidx, List.getElem?_map,
        List.getElem?_eq_getElem (by simpa using hjN)] at h1
      simp only [List.getElem_range, Option.map_some'] at h1
      rw [hmi] at h1
      exact Int.ofNat_inj.mp (Option.some_inj.mp h1)
    subst hji
    rw [List.getElem?_eq_getElem (by rw [List.length_map, hlen]; exact hi)]
    congr 1
    rw [List.getElem_map]
    rw [hjm]

/-- C4 witness: the claim applied to the fixture with three approvers at
dense indices 0..2 and alice's signature stored for transaction 7. -/
theorem claim_C4_ordered_signatures_witness :
    ∃ sigs,
      get_signatures_of_all_approvers_with_multisig_tx_by_tx_id dbWalice 7 =
        .ok (sigs, ⟨7, "macct", .pending, [9], [8], [5], 0⟩) ∧
      sigs.length = 3 ∧
      ∀ i : Nat, i < 3 →
        ∀ m ∈ dbWalice.mapping.filter (fun m =>
          m.multisigAccountAddress == "macct"),
          m.approverIndex = (i : Int) →
          sigs[i]? = some ((dbWalice.signature.find? (fun s =>
            s.txId == 7 &&
              s.approverAddress == m.approverAddress)).map
                (fun s => s.signatureBytes)) :=
  claim_C4_ordered_signatures dbWalice 7
    ⟨7, "macct", .pending, [9], [8], [5], 0⟩ 3
    (by decide) (by decide) (by decide) (by decide)

/-! ## C9 -/

/-- The mapping rows produced for an account by the creation loop:
one row per pair, with consecutive indices starting at `idx0`. -/
def mappingRowsFor (addr : Addr) : List (Addr × Bytes) → Nat →
    List MappingRow
  | [], _ => []
  | (a, _) :: rest, idx =>
    ⟨addr, a, (idx : Int)⟩ :: mappingRowsFor addr rest (idx + 1)

/-- The update arm of the approver upsert: looking up the upserted
address finds a row carrying the new public-key commitment. -/
theorem find_map_upsert_self (l : List ApproverRow) (row : ApproverRow)
    (hany : l.any (fun a => a.address == row.address) = true) :
    ∃ r, (l.map (fun a => if a.address == row.address then
        { a with pubKeyCommit := row.pubKeyCommit } else a)).find?
          (fun a => a.address == row.address) = some r ∧
      r.address = row.address ∧ r.pubKeyCommit = row.pubKeyCommit := by
  induction l with
  | nil => simp at hany
  | cons a l ih =>
    by_cases ha : (a.address == row.address) = true
    · refine ⟨{ a with pubKeyCommit := row.pubKeyCommit }, ?_, ?_, rfl⟩
      · rw [List.map_cons, ha]
        simp only [if_true]
        exact List.find?_cons_of_pos _ (by simpa using ha)
      · simpa using ha
    · have hany' : l.any (fun a => a.address == row.address) = true := by
        rw [List.any_cons] at hany
        rcases Bool.or_eq_true_iff.mp hany with h | h
        · exact absurd h ha
        · exact h
      obtain ⟨r, hr, hra, hrc⟩ := ih hany'
      refine ⟨r, ?_, hra, hrc⟩
      rw [List.map_cons]
      rw [Bool.not_eq_true] at ha
      rw [ha]
      simp only [Bool.false_eq_true, if_false]
      rw [List.find?_cons_of_neg _ (by simpa using ha)]
      exact hr

/-- The update arm of the approver upsert leaves lookups of other
addresses unchanged (the update rewrites only the commitment and only on
the upserted address). -/
theorem find_map_upsert_other (l : List ApproverRow) (row : ApproverRow)
    (b : Addr) (hne : b ≠ row.address) :
    (l.map (fun a => if a.address == row.address then
        { a with pubKeyCommit := row.pubKeyCommit } else a)).find?
          (fun a => a.address == b) =
      l.find? (fun a => a.address == b) := by
  induction l with
  | nil => rfl
  | cons a l ih =>
    rw [List.map_cons]
    by_cases hb : (a.address == b) = true
    · have ha : (a.address == row.address) = false := by
        rw [beq_iff_eq] at hb
        rw [beq_eq_false_iff_ne, hb]
        exact hne
      rw [ha]
      simp only [Bool.false_eq_true, if_false, List.find?_cons, hb]
    · rw [Bool.not_eq_true] at hb
      by_cases ha : (a.address == row.address) = true
      · rw [ha]
        simp only [if_true, List.find?_cons, hb]
        exact ih
      · rw [Bool.not_eq_true] at ha
        rw [ha]
        simp only [Bool.false_eq_true, if_false, List.find?_cons, hb]
        exact ih

/-- Upserting an approver makes its row findable with the new public-key
commitment. -/
theorem upsert_approver_find_self (db : Db) (row : ApproverRow) :
    ∃ r, (upsert_approver db row).approver.find?
        (fun a => a.address == row.address) = some r ∧
      r.address = row.address ∧ r.pubKeyCommit = row.pubKeyCommit := by
  unfold upsert_approver
  by_cases hany : db.approver.any (fun a => a.address == row.address) = true
  · simp only [hany, if_true]
    exact find_map_upsert_self db.approver row hany
  · rw [if_neg hany]
    refine ⟨row, ?_, rfl, rfl⟩
    rw [Bool.not_eq_true] at hany
    show (db.approver ++ [row]).find? (fun a => a.address == row.address)
      = some row
    rw [List.find?_append, List.find?_eq_none.mpr]
    · simp
    · intro a ha
      exact List.any_eq_false.mp hany a ha

/-- Upserting an approver leaves lookups of other addresses unchanged. -/
theorem upsert_approver_find_other (db : Db) (row : ApproverRow)
    (b : Addr) (hne : b ≠ row.address) :
    (upsert_approver db row).approver.find? (fun a => a.address == b) =
      db.approver.find? (fun a => a.address == b) := by
  unfold upsert_approver
  by_cases hany : db.approver.any (fun a => a.address == row.address) = true
  · simp only [hany, if_true]
    exact find_map_upsert_other db.approver row b hne
  · rw [if_neg hany]
    show (db.approver ++ [row]).find? (fun a => a.address == b)
      = db.approver.find? (fun a => a.address == b)
    rw [List.find?_append]
    cases hfa : db.approver.find? (fun a => a.address == b) with
    | some r => rfl
    | none =>
      have hrow : (row.address == b) = false := by
        rw [beq_eq_false_iff_ne]
        exact fun h => hne h.symm
      simp [List.find?_cons, hrow]

/-- The approver upsert touches only the `approver` table. -/
theorem upsert_approver_tables (db : Db) (row : ApproverRow) :
    (upsert_approver db row).mapping = db.mapping ∧
    (upsert_approver db row).multisigAccount = db.multisigAccount ∧
    (upsert_approver db row).tx = db.tx ∧
    (upsert_approver db row).signature = db.signature := by
  unfold upsert_approver
  split <;> exact ⟨rfl, rfl, rfl, rfl⟩

/-- Every row produced by the creation loop belongs to the account. -/
theorem mappingRowsFor_account (addr : Addr) :
    ∀ (pairs : List (Addr × Bytes)) (idx0 : Nat),
    ∀ m ∈ mappingRowsFor addr pairs idx0, m.multisigAccountAddress = addr := by
  intro pairs
  induction pairs with
  | nil => intro idx0 m hm; simp [mappingRowsFor] at hm
  | cons p rest ih =>
    intro idx0 m hm
    obtain ⟨a, c⟩ := p
    rw [mappingRowsFor, List.mem_cons] at hm
    rcases hm with rfl | hm
    · rfl
    · exact ih (idx0 + 1) m hm

/-- Indices produced by the creation loop are at least the start index. -/
theorem mappingRowsFor_idx_ge (addr : Addr) :
    ∀ (pairs : List (Addr × Bytes)) (idx0 : Nat),
    ∀ m ∈ mappingRowsFor addr pairs idx0, (idx0 : Int) ≤ m.approverIndex := by
  intro pairs
  induction pairs with
  | nil => intro idx0 m hm; simp [mappingRowsFor] at hm
  | cons p rest ih =>
    intro idx0 m hm
    obtain ⟨a, c⟩ := p
    rw [mappingRowsFor, List.mem_cons] at hm
    rcases hm with rfl | hm
    · exact le_refl _
    · calc (idx0 : Int) ≤ ((idx0 + 1 : Nat) : Int) := by
            exact_mod_cast Nat.le_succ idx0
        _ ≤ m.approverIndex := ih (idx0 + 1) m hm

/-- The creation loop produces rows already sorted by `approver_index`. -/
theorem mappingRowsFor_sorted (addr : Addr) :
    ∀ (pairs : List (Addr × Bytes)) (idx0 : Nat),
    (mappingRowsFor addr pairs idx0).Sorted mappingLe := by
  intro pairs
  induction pairs with
  | nil => intro idx0; exact List.sorted_nil
  | cons p rest ih =>
    intro idx0
    obtain ⟨a, c⟩ := p
    rw [mappingRowsFor]
    refine List.Pairwise.cons ?_ (ih (idx0 + 1))
    intro m hm
    show ((idx0 : Nat) : Int) ≤ m.approverIndex
    calc ((idx0 : Nat) : Int) ≤ ((idx0 + 1 : Nat) : Int) := by
          exact_mod_cast Nat.le_succ idx0
      _ ≤ m.approverIndex := mappingRowsFor_idx_ge addr rest (idx0 + 1) m hm

/-- The creation loop's `(approver_address, approver_index)` projection:
the pairs' addresses zipped with the consecutive indices. -/
theorem mappingRowsFor_map_pair (addr : Addr) :
    ∀ (pairs : List (Addr × Bytes)) (idx0 : Nat),
    (mappingRowsFor addr pairs idx0).map
        (fun m => (m.approverAddress, m.approverIndex)) =
      (pairs.map Prod.fst).zip ((List.range' idx0 pairs.length).map
        Int.ofNat) := by
  intro pairs
  induction pairs with
  | nil => intro idx0; rfl
  | cons p rest ih =>
    intro idx0
    obtain ⟨a, c⟩ := p
    rw [mappingRowsFor, List.map_cons, List.map_cons, List.length_cons,
      List.range'_succ, List.map_cons, List.zip_cons_cons, ih (idx0 + 1)]
    rfl

/-- Full characterization of the per-approver creation loop: starting
from a state whose rows for the account all have indices below the start
index and addresses disjoint from the remaining pairs, the loop succeeds,
appends exactly the enumerated mapping rows, touches no other table, and
leaves every pair's approver findable with its public-key commitment. -/
theorem insertApproversFrom_spec (addr : Addr) (now : Nat) :
    ∀ (pairs : List (Addr × Bytes)) (db0 : Db) (idx0 : Nat),
    (pairs.map Prod.fst).Nodup →
    (∀ m ∈ db0.mapping, m.multisigAccountAddress = addr →
      m.approverAddress ∉ pairs.map Prod.fst ∧
        m.approverIndex < (idx0 : Int)) →
    ∃ db', insertApproversFrom addr now db0 pairs idx0 = .ok db' ∧
      db'.mapping = db0.mapping ++ mappingRowsFor addr pairs idx0 ∧
      db'.multisigAccount = db0.multisigAccount ∧
      db'.tx = db0.tx ∧
      db'.signature = db0.signature ∧
      (∀ p ∈ pairs, ∃ r,
        db'.approver.find? (fun x => x.address == p.1) = some r ∧
        r.address = p.1 ∧ r.pubKeyCommit = p.2) ∧
      (∀ b : Addr, b ∉ pairs.map Prod.fst →
        db'.approver.find? (fun x => x.address == b) =
          db0.approver.find? (fun x => x.address == b)) := by
  intro pairs
  induction pairs with
  | nil =>
    intro db0 idx0 _ _
    refine ⟨db0, rfl, by simp [mappingRowsFor], rfl, rfl, rfl, ?_, ?_⟩
    · intro p hp; simp at hp
    · intro b _; rfl
  | cons p rest ih =>
    intro db0 idx0 hnodup hfresh
    obtain ⟨a, c⟩ := p
    have hnodup' : (rest.map Prod.fst).Nodup := (List.nodup_cons.mp
      (by simpa using hnodup)).2
    have hanotin : a ∉ rest.map Prod.fst := (List.nodup_cons.mp
      (by simpa using hnodup)).1
    have htab := upsert_approver_tables db0 ⟨a, c, now⟩
    have hins : save_new_multisig_account_approver_mapping
        (upsert_approver db0 ⟨a, c, now⟩) addr a (idx0 : Int) =
        .ok { upsert_approver db0 ⟨a, c, now⟩ with
                mapping := (upsert_approver db0 ⟨a, c, now⟩).mapping ++
                  [{ multisigAccountAddress := addr, approverAddress := a,
                     approverIndex := (idx0 : Int) }] } := by
      unfold save_new_multisig_account_approver_mapping
      rw [if_neg]
      rw [htab.1]
      intro hany
      rw [List.any_eq_true] at hany
      obtain ⟨m, hm, hcond⟩ := hany
      rw [Bool.and_eq_true, beq_iff_eq] at hcond
      obtain ⟨hacc, hcond2⟩ := hcond
      obtain ⟨hnmem, hlt⟩ := hfresh m hm hacc
      rcases Bool.or_eq_true_iff.mp hcond2 with h | h
      · rw [beq_iff_eq] at h
        apply hnmem
        rw [List.map_cons, h]
        exact List.mem_cons_self _ _
      · rw [beq_iff_eq] at h
        rw [h] at hlt
        exact absurd hlt (lt_irrefl _)
    set db2 : Db := { upsert_approver db0 ⟨a, c, now⟩ with
        mapping := (upsert_approver db0 ⟨a, c, now⟩).mapping ++
          [{ multisigAccountAddress := addr, approverAddress := a,
             approverIndex := (idx0 : Int) }] } with hdb2
    have hdb2map : db2.mapping = db0.mapping ++
        [{ multisigAccountAddress := addr, approverAddress := a,
           approverIndex := (idx0 : Int) }] := by
      rw [hdb2]
      show (upsert_approver db0 ⟨a, c, now⟩).mapping ++ _ = _
      rw [htab.1]
    have hfresh2 : ∀ m ∈ db2.mapping, m.multisigAccountAddress = addr →
        m.approverAddress ∉ rest.map Prod.fst ∧
          m.approverIndex < ((idx0 + 1 : Nat) : Int) := by
      intro m hm hacc
      rw [hdb2map, List.mem_append] at hm
      rcases hm with hm | hm
      · obtain ⟨hnmem, hlt⟩ := hfresh m hm hacc
        constructor
        · intro hmem
          apply hnmem
          rw [List.map_cons]
          exact List.mem_cons_of_mem _ hmem
        · calc m.approverIndex < (idx0 : Int) := hlt
            _ ≤ ((idx0 + 1 : Nat) : Int) := by
              exact_mod_cast Nat.le_succ idx0
      · rw [List.mem_singleton] at hm
        subst hm
        refine ⟨hanotin, ?_⟩
        show (idx0 : Int) < ((idx0 + 1 : Nat) : Int)
        exact_mod_cast Nat.lt_succ_self idx0
    obtain ⟨db', hrun, hmap, hacct, htx, hsig, hfindp, hfindo⟩ :=
      ih db2 (idx0 + 1) hnodup' hfresh2
    refine ⟨db', ?_, ?_, ?_, ?_, ?_, ?_, ?_⟩
    · rw [insertApproversFrom, hins]
      exact hrun
    · rw [hmap, hdb2map, mappingRowsFor, List.append_assoc]
      rfl
    · rw [hacct, hdb2]
      show _ = db0.multisigAccount
      exact htab.2.1
    · rw [htx, hdb2]
      show _ = db0.tx
      exact htab.2.2.1
    · rw [hsig, hdb2]
      show _ = db0.signature
      exact htab.2.2.2
    · intro q hq
      rw [List.mem_cons] at hq
      rcases hq with rfl | hq
      · obtain ⟨r, hr, hra, hrc⟩ := upsert_approver_find_self db0 ⟨a, c, now⟩
        refine ⟨r, ?_, hra, hrc⟩
        rw [hfindo a hanotin]
        show db2.approver.find? _ = some r
        rw [hdb2]
        exact hr
      · exact hfindp q hq
    · intro b hb
      have hbrest : b ∉ rest.map Prod.fst := by
        intro hmem
        apply hb
        rw [List.map_cons]
        exact List.mem_cons_of_mem _ hmem
      have hba : b ≠ a := by
        intro heq
        apply hb
        rw [List.map_cons, heq]
        exact List.mem_cons_self _ _
      rw [hfindo b hbrest]
      show db2.approver.find? _ = _
      rw [hdb2]
      show (upsert_approver db0 ⟨a, c, now⟩).approver.find? _ = _
      exact upsert_approver_find_other db0 ⟨a, c, now⟩ b hba

/-- Joining the created mapping rows back against the approver table
recovers exactly the created `(address, pub_key_commit)` pairs, in
order. -/
theorem stream_of_created_rows (dbX : Db) (addr : Addr) :
    ∀ (pairs : List (Addr × Bytes)) (idx0 : Nat),
    (∀ p ∈ pairs, ∃ r,
      dbX.approver.find? (fun x => x.address == p.1) = some r ∧
      r.address = p.1 ∧ r.pubKeyCommit = p.2) →
    ((mappingRowsFor addr pairs idx0).filterMap (fun m =>
      dbX.approver.find? (fun x => x.address == m.approverAddress))).map
        (fun a => (a.address, a.pubKeyCommit)) = pairs := by
  intro pairs
  induction pairs with
  | nil => intro idx0 _; rfl
  | cons p rest ih =>
    intro idx0 hfind
    obtain ⟨a, c⟩ := p
    obtain ⟨r, hr, hra, hrc⟩ := hfind (a, c) (List.mem_cons_self _ _)
    rw [mappingRowsFor, List.filterMap_cons]
    have hr' : dbX.approver.find? (fun x => x.address ==
        (⟨addr, a, (idx0 : Int)⟩ : MappingRow).approverAddress) = some r :=
      hr
    simp only [hr', List.map_cons, hra, hrc]
    rw [ih (idx0 + 1) (fun q hq => hfind q (List.mem_cons_of_mem _ hq))]

/-- C9: creating an account with an ordered approver list of length `N`
stores `approver_index` values exactly `0..N-1` in insertion order, and
listing the account's approvers returns them, with their public-key
commitments, in that same insertion order. -/
theorem claim_C9_create_preserves_order (db : Db)
    (acct : MultisigAccountWithApprovers) (now : Nat)
    (hlen : acct.approvers.length = acct.pubKeyCommits.length)
    (hnodup : acct.approvers.Nodup)
    (hfreshAcct : ∀ r ∈ db.multisigAccount, r.address ≠ acct.address)
    (hfreshMap : ∀ m ∈ db.mapping,
      m.multisigAccountAddress ≠ acct.address) :
    ∃ db', create_multisig_account db acct now = .ok db' ∧
      (db'.mapping.filter (fun m =>
        m.multisigAccountAddress == acct.address)).map
          (fun m => (m.approverAddress, m.approverIndex)) =
        acct.approvers.zip ((List.range acct.approvers.length).map
          Int.ofNat) ∧
      (stream_approvers_by_multisig_account_address db' acct.address).map
          (fun a => (a.address, a.pubKeyCommit)) =
        acct.approvers.zip acct.pubKeyCommits := by
  have hfst : (acct.approvers.zip acct.pubKeyCommits).map Prod.fst =
      acct.approvers := List.map_fst_zip _ _ (le_of_eq hlen)
  have hziplen : (acct.approvers.zip acct.pubKeyCommits).length =
      acct.approvers.length := by
    rw [List.length_zip, ← hlen, Nat.min_self]
  have hsave : save_new_multisig_account db
      { address := acct.address, kind := acct.kind,
        threshold := (acct.threshold : Int), createdAt := now } =
      .ok { db with multisigAccount := db.multisigAccount ++
        [{ address := acct.address, kind := acct.kind,
           threshold := (acct.threshold : Int), createdAt := now }] } := by
    unfold save_new_multisig_account
    rw [if_neg]
    intro hany
    rw [List.any_eq_true] at hany
    obtain ⟨r, hrmem, hr⟩ := hany
    rw [beq_iff_eq] at hr
    exact hfreshAcct r hrmem hr
  obtain ⟨db', hrun, hmap, -, -, -, hfindp, -⟩ :=
    insertApproversFrom_spec acct.address now
      (acct.approvers.zip acct.pubKeyCommits)
      { db with multisigAccount := db.multisigAccount ++
        [{ address := acct.address, kind := acct.kind,
           threshold := (acct.threshold : Int), createdAt := now }] }
      0
      (by rw [hfst]; exact hnodup)
      (by
        intro m hm hacc
        exact absurd hacc (hfreshMap m hm))
  have hmapdb : db'.mapping = db.mapping ++
      mappingRowsFor acct.address (acct.approvers.zip acct.pubKeyCommits)
        0 := hmap
  have hfilter : db'.mapping.filter (fun m =>
      m.multisigAccountAddress == acct.address) =
      mappingRowsFor acct.address (acct.approvers.zip acct.pubKeyCommits)
        0 := by
    rw [hmapdb, List.filter_append]
    have h1 : db.mapping.filter (fun m =>
        m.multisigAccountAddress == acct.address) = [] := by
      rw [List.filter_eq_nil_iff]
      intro m hm
      rw [Bool.not_eq_true, beq_eq_false_iff_ne]
      exact hfreshMap m hm
    have h2 : (mappingRowsFor acct.address
        (acct.approvers.zip acct.pubKeyCommits) 0).filter (fun m =>
          m.multisigAccountAddress == acct.address) =
        mappingRowsFor acct.address (acct.approvers.zip acct.pubKeyCommits)
          0 := by
      rw [List.filter_eq_self]
      intro m hm
      rw [beq_iff_eq]
      exact mappingRowsFor_account acct.address _ 0 m hm
    rw [h1, h2, List.nil_append]
  refine ⟨db', ?_, ?_, ?_⟩
  · unfold create_multisig_account
    simp only [hsave, hrun]
  · rw [hfilter, mappingRowsFor_map_pair, hfst, hziplen,
      ← List.range_eq_range']
  · unfold stream_approvers_by_multisig_account_address mappingRowsSorted
    rw [hfilter, List.Sorted.insertionSort_eq (mappingRowsFor_sorted
      acct.address _ 0)]
    exact stream_of_created_rows db' acct.address _ 0 hfindp

/-- C9 witness: creating the three-approver fixture account in an empty
database; indices are `[0, 1, 2]` in insertion order and the listing
round-trips the `(address, pub_key_commit)` pairs. -/
theorem claim_C9_create_preserves_order_witness :
    ∃ db', create_multisig_account dbEmpty
      { address := "macct", kind := .publicMode, threshold := 2,
        approvers := ["alice", "bob", "charlie"],
        pubKeyCommits := [[1], [2], [3]] } 0 = .ok db' ∧
      (db'.mapping.filter (fun m =>
        m.multisigAccountAddress == "macct")).map
          (fun m => (m.approverAddress, m.approverIndex)) =
        (["alice", "bob", "charlie"] : List Addr).zip
          ((List.range 3).map Int.ofNat) ∧
      (stream_approvers_by_multisig_account_address db' "macct").map
          (fun a => (a.address, a.pubKeyCommit)) =
        (["alice", "bob", "charlie"] : List Addr).zip
          ([[1], [2], [3]] : List Bytes) :=
  claim_C9_create_preserves_order dbEmpty
    { address := "macct", kind := .publicMode, threshold := 2,
      approvers := ["alice", "bob", "charlie"],
      pubKeyCommits := [[1], [2], [3]] } 0
    (by decide) (by decide) (by decide) (by decide)

/-! ## C6 -/

/-- Linearization of concurrent store `AddSignatureTx` calls: each call
runs in its own database transaction, which the database serializes, so a
concurrent execution is some sequential order of the atomic calls.  The
fold returns each call's observed result and the final state. -/
def add_signatures_seq (txId : TxId) (now : Nat) :
    Db → List (Addr × Bytes) →
    List (Except MultisigStoreError (Option Bool)) × Db
  | db, [] => ([], db)
  | db, (a, sig) :: rest =>
    match add_multisig_tx_signature db txId a sig now with
    | .error e =>
      let r := add_signatures_seq txId now db rest
      (.error e :: r.1, r.2)
    | .ok (b, db1) =>
      let r := add_signatures_seq txId now db1 rest
      (.ok b :: r.1, r.2)

/-- Linearization of concurrent engine `AddSignature` calls, each with
its own runtime reply; collects every call's result and all
`ProcessMultisigTx` messages posted to the runtime queue. -/
def engine_add_signatures_seq (txId : TxId) (now : Nat) :
    Db → List (Addr × Bytes × Except ProcessMultisigTxError TxResult) →
    List (Except EngineErrKind (Option TxResult)) × Db ×
      List ProcessMultisigTxMsg
  | db, [] => ([], db, [])
  | db, (a, sig, reply) :: rest =>
    let r := engine_add_signature db txId a sig now reply
    let rest' := engine_add_signatures_seq txId now r.2.1 rest
    (r.1 :: rest'.1, rest'.2.1, r.2.2 ++ rest'.2.2)

/-- Results of sequentialized adds by distinct, joined, fresh approvers:
the k-th caller (0-based) observes the count `c0 + k + 1` compared with
the account's threshold. -/
theorem add_signatures_seq_results (txId : TxId) (now : Nat) (t : TxRow)
    (acct : MultisigAccountRow) :
    ∀ (calls : List (Addr × Bytes)) (db : Db) (c0 : Nat),
    db.tx.find? (fun x => x.id == txId) = some t →
    fetch_mutisig_account_by_address db t.multisigAccountAddress =
      some acct →
    (∀ c ∈ calls, validate_approver_address_by_tx_id db txId c.1 = true) →
    (calls.map Prod.fst).Nodup →
    (∀ c ∈ calls, ∀ s ∈ db.signature,
      ¬(s.txId = txId ∧ s.approverAddress = c.1)) →
    (signaturesForTx db txId).length = c0 →
    (add_signatures_seq txId now db calls).1 =
      (List.range calls.length).map (fun k =>
        .ok (some (decide (((c0 + k + 1 : Nat) : Int) ≥
          acct.threshold)))) := by
  intro calls
  induction calls with
  | nil => intro db c0 _ _ _ _ _ _; rfl
  | cons c rest ih =>
    intro db c0 hfind hacct hjoined hnodup hnosig hc0
    obtain ⟨a, sig⟩ := c
    have hval : validate_approver_address_by_tx_id db txId a = true :=
      hjoined (a, sig) (List.mem_cons_self _ _)
    have hdup : ∀ s ∈ db.signature, ¬(s.txId = txId ∧
        s.approverAddress = a) :=
      fun s hs => hnosig (a, sig) (List.mem_cons_self _ _) s hs
    have hadd := @add_signature_joined_spec db txId a sig now t acct
      hval hdup hfind hacct
    rw [List.map_cons] at hnodup
    have hanotin := List.nodup_cons.mp hnodup
    have hcount1 : (signaturesForTx { db with signature := db.signature ++
        [{ txId := txId, approverAddress := a, signatureBytes := sig,
           createdAt := now }] } txId).length = c0 + 1 := by
      unfold signaturesForTx
      rw [List.filter_append, List.length_append]
      unfold signaturesForTx at hc0
      rw [hc0]
      simp
    have hrec := ih { db with signature := db.signature ++
        [{ txId := txId, approverAddress := a, signatureBytes := sig,
           createdAt := now }] } (c0 + 1) hfind hacct
      (fun q hq => hjoined q (List.mem_cons_of_mem _ hq))
      hanotin.2
      (by
        intro q hq s hs
        rw [List.mem_append] at hs
        rcases hs with hs | hs
        · exact hnosig q (List.mem_cons_of_mem _ hq) s hs
        · rw [List.mem_singleton] at hs
          subst hs
          rintro ⟨-, h2⟩
          have h3 : a = q.1 := h2
          apply hanotin.1
          rw [h3]
          exact List.mem_map.mpr ⟨q, hq, rfl⟩)
      hcount1
    rw [add_signatures_seq]
    simp only [hadd, hrec, hc0]
    rw [List.length_cons, List.range_succ_eq_map, List.map_cons,
      List.map_map]
    refine List.cons_eq_cons.mpr ⟨rfl, ?_⟩
    apply List.map_congr_left
    intro k _
    show Except.ok (some (decide (((c0 + 1 + k + 1 : Nat) : Int) ≥
      acct.threshold))) = _
    have harith : c0 + 1 + k + 1 = c0 + (k + 1) + 1 := by omega
    rw [harith]
    rfl

/-- Among `T` observed counts `1, 2, ..., T` compared with threshold `T`,
exactly one (the `T`-th) meets it. -/
theorem count_threshold_hits (T : Nat) (hT : 1 ≤ T) (thr : Int)
    (hthr : thr = (T : Int)) :
    ((List.range T).map (fun k =>
      (Except.ok (some (decide (((0 + k + 1 : Nat) : Int) ≥ thr))) :
        Except MultisigStoreError (Option Bool)))).countP
      (fun r => decide (r = .ok (some true))) = 1 := by
  obtain ⟨n, rfl⟩ : ∃ n, T = n + 1 := ⟨T - 1, by omega⟩
  rw [List.range_succ, List.map_append, List.countP_append]
  have h1 : ((List.range n).map (fun k =>
      (Except.ok (some (decide (((0 + k + 1 : Nat) : Int) ≥ thr))) :
        Except MultisigStoreError (Option Bool)))).countP
      (fun r => decide (r = .ok (some true))) = 0 := by
    rw [List.countP_eq_zero]
    intro r hr
    rw [List.mem_map] at hr
    obtain ⟨k, hk, rfl⟩ := hr
    rw [List.mem_range] at hk
    simp only [decide_eq_true_eq, Except.ok.injEq, Option.some.injEq]
    intro hcontra
    rw [hthr] at hcontra
    push_cast at hcontra
    omega
  rw [h1]
  have h2 : thr ≤ (n : Int) + 1 := by
    rw [hthr]
    push_cast
    omega
  simp [h2]

/-- Engine step on a below-threshold store result: `Ok(None)`, no message
posted. -/
theorem engine_step_false {db db1 : Db} {txId : TxId} {a : Addr}
    {sig : Bytes} {now : Nat}
    {reply : Except ProcessMultisigTxError TxResult}
    (hadd : add_multisig_tx_signature db txId a sig now =
      .ok (some false, db1)) :
    engine_add_signature db txId a sig now reply = (.ok none, db1, []) := by
  unfold engine_add_signature
  rw [hadd]

/-- A validated approver pins a mapping row joined to the transaction's
account (using that the id matches exactly one `tx` row). -/
theorem validate_gives_mapping {db : Db} {txId : TxId} {a : Addr}
    {t : TxRow}
    (hval : validate_approver_address_by_tx_id db txId a = true)
    (htxf : db.tx.filter (fun x => x.id == txId) = [t]) :
    ∃ m ∈ db.mapping,
      m.multisigAccountAddress = t.multisigAccountAddress ∧
      m.approverAddress = a := by
  unfold validate_approver_address_by_tx_id at hval
  rw [List.any_eq_true] at hval
  obtain ⟨m, hm, hcond⟩ := hval
  rw [Bool.and_eq_true, List.any_eq_true] at hcond
  obtain ⟨⟨t', ht', hcond'⟩, happ⟩ := hcond
  rw [Bool.and_eq_true, beq_iff_eq, beq_iff_eq] at hcond'
  have htt : t' ∈ db.tx.filter (fun x => x.id == txId) :=
    List.mem_filter.mpr ⟨ht', by simp [hcond'.1]⟩
  rw [htxf, List.mem_singleton] at htt
  subst htt
  exact ⟨m, hm, hcond'.2.symm, by simpa using happ⟩

/-- The positional load succeeds whenever the transaction row exists and
its account has at least one mapping row. -/
theorem load_ok_of_mapping {db1 : Db} {txId : TxId} {t : TxRow}
    (hfind : db1.tx.find? (fun x => x.id == txId) = some t)
    (hne : (mappingRowsSorted db1 t.multisigAccountAddress).isEmpty =
      false) :
    ∃ sigs, get_signatures_of_all_approvers_with_multisig_tx_by_tx_id
      db1 txId = .ok (sigs, t) := by
  unfold get_signatures_of_all_approvers_with_multisig_tx_by_tx_id
    fetch_all_signature_bytes_with_tx_by_tx_id_in_order_of_approvers
  rw [hfind]
  simp only [hne, Bool.false_eq_true, if_false]
  exact ⟨_, rfl⟩

/-- Engine step on a threshold-met store result: exactly one
`ProcessMultisigTx` message is posted, whatever the runtime replies. -/
theorem engine_step_true_msgs {db db1 : Db} {txId : TxId} {a : Addr}
    {sig : Bytes} {now : Nat}
    {reply : Except ProcessMultisigTxError TxResult}
    {sigs : List (Option Bytes)} {t : TxRow}
    (hadd : add_multisig_tx_signature db txId a sig now =
      .ok (some true, db1))
    (hload : get_signatures_of_all_approvers_with_multisig_tx_by_tx_id
      db1 txId = .ok (sigs, t))
    (hlen : (db1.tx.filter (fun x => x.id == txId)).length = 1) :
    ((engine_add_signature db txId a sig now reply).2.2).length = 1 := by
  unfold engine_add_signature
  rw [hadd]
  simp only [hload]
  cases reply with
  | ok r => simp [update_status_existing hlen]
  | error e => simp [update_status_existing hlen]

/-- Non-emptiness from a positive length. -/
theorem isEmpty_eq_false_of_length_pos {α : Type} {l : List α}
    (h : 0 < l.length) : l.isEmpty = false := by
  cases l with
  | nil => simp at h
  | cons x xs => rfl

/-- Message count of the linearized engine calls: when the remaining
calls' signatures exactly reach the threshold, precisely one
`ProcessMultisigTx` message is posted in total. -/
theorem engine_seq_msgs (txId : TxId) (now : Nat) (t : TxRow)
    (acct : MultisigAccountRow) (T : Nat)
    (hthr : acct.threshold = (T : Int)) :
    ∀ (calls : List (Addr × Bytes ×
      Except ProcessMultisigTxError TxResult)) (db : Db) (c0 : Nat),
    db.tx.find? (fun x => x.id == txId) = some t →
    db.tx.filter (fun x => x.id == txId) = [t] →
    fetch_mutisig_account_by_address db t.multisigAccountAddress =
      some acct →
    (∀ c ∈ calls, validate_approver_address_by_tx_id db txId c.1 = true) →
    (calls.map (fun c => c.1)).Nodup →
    (∀ c ∈ calls, ∀ s ∈ db.signature,
      ¬(s.txId = txId ∧ s.approverAddress = c.1)) →
    (signaturesForTx db txId).length = c0 →
    c0 + calls.length = T →
    1 ≤ calls.length →
    ((engine_add_signatures_seq txId now db calls).2.2).length = 1 := by
  intro calls
  induction calls with
  | nil => intro db c0 _ _ _ _ _ _ _ _ h; simp at h
  | cons c rest ih =>
    intro db c0 hfind htxf hacct hjoined hnodup hnosig hc0 htotal _
    obtain ⟨a, sig, reply⟩ := c
    have hval : validate_approver_address_by_tx_id db txId a = true :=
      hjoined (a, sig, reply) (List.mem_cons_self _ _)
    have hdup : ∀ s ∈ db.signature, ¬(s.txId = txId ∧
        s.approverAddress = a) :=
      fun s hs => hnosig (a, sig, reply) (List.mem_cons_self _ _) s hs
    have hadd := @add_signature_joined_spec db txId a sig now t acct
      hval hdup hfind hacct
    rw [hc0] at hadd
    rw [List.map_cons] at hnodup
    have hanotin := List.nodup_cons.mp hnodup
    cases rest with
    | nil =>
      have hc1 : c0 + 1 = T := by simpa using htotal
      have hb : decide (((c0 + 1 : Nat) : Int) ≥ acct.threshold) =
          true := by
        rw [decide_eq_true_eq, hthr]
        push_cast
        omega
      rw [hb] at hadd
      obtain ⟨m, hm, hmacct, -⟩ := validate_gives_mapping hval htxf
      have hmem : m ∈ db.mapping.filter (fun x =>
          x.multisigAccountAddress == t.multisigAccountAddress) :=
        List.mem_filter.mpr ⟨hm, by simp [hmacct]⟩
      have hne : (mappingRowsSorted { db with signature := db.signature ++
          [{ txId := txId, approverAddress := a, signatureBytes := sig,
             createdAt := now }] } t.multisigAccountAddress).isEmpty =
          false := by
        apply isEmpty_eq_false_of_length_pos
        rw [(mappingRowsSorted_perm _ _).length_eq]
        exact List.length_pos_of_mem hmem
      obtain ⟨sigs, hload⟩ := @load_ok_of_mapping
        { db with signature := db.signature ++
          [{ txId := txId, approverAddress := a, signatureBytes := sig,
             createdAt := now }] } txId t hfind hne
      have hulen : (({ db with signature := db.signature ++
          [{ txId := txId, approverAddress := a, signatureBytes := sig,
             createdAt := now }] } : Db).tx.filter (fun x =>
               x.id == txId)).length = 1 := by
        show (db.tx.filter (fun x => x.id == txId)).length = 1
        rw [htxf]
        rfl
      rw [engine_add_signatures_seq]
      simp only [engine_add_signatures_seq, List.append_nil]
      exact engine_step_true_msgs hadd hload hulen
    | cons c2 rest2 =>
      have hb : decide (((c0 + 1 : Nat) : Int) ≥ acct.threshold) =
          false := by
        rw [decide_eq_false_iff_not, hthr]
        push_cast
        simp only [List.length_cons] at htotal
        omega
      rw [hb] at hadd
      have hstep := @engine_step_false db _ txId a sig now reply hadd
      rw [engine_add_signatures_seq]
      simp only [hstep, List.nil_append]
      apply ih { db with signature := db.signature ++
          [{ txId := txId, approverAddress := a, signatureBytes := sig,
             createdAt := now }] } (c0 + 1) hfind htxf hacct
      · intro q hq
        exact hjoined q (List.mem_cons_of_mem _ hq)
      · exact hanotin.2
      · intro q hq s hs
        rw [List.mem_append] at hs
        rcases hs with hs | hs
        · exact hnosig q (List.mem_cons_of_mem _ hq) s hs
        · rw [List.mem_singleton] at hs
          subst hs
          rintro ⟨-, h2⟩
          have h3 : a = q.1 := h2
          apply hanotin.1
          rw [h3]
          exact List.mem_map.mpr ⟨q, hq, rfl⟩
      · unfold signaturesForTx
        rw [List.filter_append, List.length_append]
        unfold signaturesForTx at hc0
        rw [hc0]
        simp
      · simp only [List.length_cons] at htotal ⊢
        omega
      · simp

/-- C6: for a transaction with threshold `T` and no prior signatures,
when `T` valid signatures are submitted concurrently by distinct joined
approvers, then — in any serialization of the atomic per-call database
transactions, which is how the database executes them — exactly one of
the concurrent callers observes the threshold-met `Some(true)` return
from `AddSignatureTx`, and exactly one `ProcessMultisigTx` message is
sent to the runtime by the corresponding engine calls. -/
theorem claim_C6_threshold_met_once (db : Db) (txId : TxId) (now : Nat)
    (t : TxRow) (acct : MultisigAccountRow) (T : Nat)
    (calls : List (Addr × Bytes × Except ProcessMultisigTxError TxResult))
    (hthr : acct.threshold = (T : Int))
    (hfind : db.tx.find? (fun x => x.id == txId) = some t)
    (htxf : db.tx.filter (fun x => x.id == txId) = [t])
    (hacct : fetch_mutisig_account_by_address db t.multisigAccountAddress
      = some acct)
    (hjoined : ∀ c ∈ calls,
      validate_approver_address_by_tx_id db txId c.1 = true)
    (hnodup : (calls.map (fun c => c.1)).Nodup)
    (hnosig : signaturesForTx db txId = [])
    (hT : calls.length = T) (hT1 : 1 ≤ T) :
    ((add_signatures_seq txId now db
        (calls.map (fun c => (c.1, c.2.1)))).1.countP
      (fun r => decide (r = .ok (some true))) = 1) ∧
    ((engine_add_signatures_seq txId now db calls).2.2).length = 1 := by
  have hfresh : ∀ (x : Addr), ∀ s ∈ db.signature,
      ¬(s.txId = txId ∧ s.approverAddress = x) := by
    rintro x s hs ⟨h1, -⟩
    have : s ∈ signaturesForTx db txId := by
      unfold signaturesForTx
      exact List.mem_filter.mpr ⟨hs, by simp [h1]⟩
    rw [hnosig] at this
    exact absurd this (List.not_mem_nil s)
  constructor
  · have hmapfst : ((calls.map (fun c => (c.1, c.2.1))).map Prod.fst) =
        calls.map (fun c => c.1) := by
      rw [List.map_map]
      rfl
    have hres := add_signatures_seq_results txId now t acct
      (calls.map (fun c => (c.1, c.2.1))) db 0 hfind hacct
      (by
        intro q hq
        rw [List.mem_map] at hq
        obtain ⟨c, hc, rfl⟩ := hq
        exact hjoined c hc)
      (by rw [hmapfst]; exact hnodup)
      (fun q _ => hfresh q.1)
      (by rw [hnosig]; rfl)
    rw [hres, List.length_map, hT]
    exact count_threshold_hits T hT1 acct.threshold hthr
  · exact engine_seq_msgs txId now t acct T hthr calls db 0 hfind htxf
      hacct hjoined hnodup (fun c _ => hfresh c.1)
      (by rw [hnosig]; rfl) (by rw [hT]; omega) (by rw [hT]; exact hT1)

/-- C6 witness: threshold 2 on the fixture account; alice and bob submit
concurrently (replies 42 and 43): exactly one `Some(true)` observation
and exactly one posted `ProcessMultisigTx` message. -/
theorem claim_C6_threshold_met_once_witness :
    ((add_signatures_seq 7 3 dbW
        (([("alice", [4], Except.ok 42), ("bob", [5], Except.ok 43)] :
          List (Addr × Bytes ×
            Except ProcessMultisigTxError TxResult)).map
              (fun c => (c.1, c.2.1)))).1.countP
      (fun r => decide (r = .ok (some true))) = 1) ∧
    ((engine_add_signatures_seq 7 3 dbW
        ([("alice", [4], Except.ok 42), ("bob", [5], Except.ok 43)] :
          List (Addr × Bytes ×
            Except ProcessMultisigTxError TxResult))).2.2).length = 1 :=
  claim_C6_threshold_met_once dbW 7 3
    ⟨7, "macct", .pending, [9], [8], [5], 0⟩ acctRowW 2
    [("alice", [4], .ok 42), ("bob", [5], .ok 43)]
    (by decide) (by decide) (by decide) (by decide) (by decide)
    (by decide) (by decide) (by decide) (by decide)
